import Mathlib

/-!
Verification of the Threads-Insights client library
(`thread_insights_client/client.py`) against its natural-language
specification.

The Python code manipulates parsed JSON values (nested dicts / lists /
scalars), so the embedding models JSON values as an inductive type and
every public operation as a Lean function over it.  Python exceptions are
modelled with `Except String`: a `.error` value marks the exception class
the interpreter would raise at that point.  The HTTP collaborator (the
`requests` library) is modelled as an explicit oracle argument: either
the finite sequence of page responses it produces, or a function from
request data to `Except String (Nat × Json)` (transport exception, or
status code plus parsed body).
-/

set_option autoImplicit false

namespace TIC

/-- A parsed JSON value, exactly the shapes `response.json()` can yield.
Numbers are modelled as integers (all numeric fields in this API are
counts or Unix timestamps). -/
inductive Json where
  | null
  | bool (b : Bool)
  | num (n : Int)
  | str (s : String)
  | arr (items : List Json)
  | obj (fields : List (String × Json))

namespace Json

/-- Dictionary lookup: `d.get(k)` restricted to object values (callers
establish object-ness separately where Python would raise). -/
def mget (j : Json) (k : String) : Option Json :=
  match j with
  | .obj l => (l.find? (fun p => p.1 == k)).map (fun p => p.2)
  | _ => none

/-- `d.get(k)` with Python's `None` default. -/
def mgetD (j : Json) (k : String) : Json :=
  (j.mget k).getD .null

/-- Python truthiness of a JSON value (`if x:`). -/
def truthy : Json → Bool
  | .null => false
  | .bool b => b
  | .num n => n != 0
  | .str s => !s.isEmpty
  | .arr l => !l.isEmpty
  | .obj l => !l.isEmpty

end Json

/-- `k in d` for dict values; `false` for non-dicts (the claims only
exercise it on dicts, where it is exact). -/
def hasKeyB (j : Json) (k : String) : Bool :=
  match j with
  | .obj l => l.any (fun p => p.1 == k)
  | _ => false

/-- `item.get("name") == s` — Python equality of the looked-up value with
a string literal. -/
def nameIs (item : Json) (s : String) : Bool :=
  match item.mget "name" with
  | some (.str n) => n == s
  | _ => false

/-- Python iteration `for x in j`: lists yield elements, dicts yield their
keys, strings yield one-character strings; other values raise `TypeError`. -/
def asIterList : Json → Except String (List Json)
  | .arr l => .ok l
  | .obj l => .ok (l.map (fun p => Json.str p.1))
  | .str s => .ok (s.toList.map (fun c => Json.str (String.singleton c)))
  | _ => .error "TypeError"

/-- Python `x[0]` on a JSON value: first list element, first character of
a string; `IndexError` when empty, `KeyError`/`TypeError` otherwise. -/
def index0 : Json → Except String Json
  | .arr (v :: _) => .ok v
  | .arr [] => .error "IndexError"
  | .str s =>
    match s.toList with
    | [] => .error "IndexError"
    | c :: _ => .ok (.str (String.singleton c))
  | .obj _ => .error "KeyError"
  | _ => .error "TypeError"

/-- Python `len(x)` for values that support it. -/
def jLen : Json → Except String Nat
  | .arr l => .ok l.length
  | .obj l => .ok l.length
  | .str s => .ok s.length
  | _ => .error "TypeError"

/-- A flattened table row, i.e. one Python dict destined for
`pd.DataFrame(rows)`, with insertion order preserved. -/
abbrev Row := List (String × Json)

/-- `k in row` for a row dict. -/
def rowHasKey (r : Row) (k : String) : Bool :=
  r.any (fun p => p.1 == k)

/-- `row[k]` lookup (first occurrence). -/
def rowGet (r : Row) (k : String) : Option Json :=
  (r.find? (fun p => p.1 == k)).map (fun p => p.2)

/-- `row.update({k: v})` for a single key: replaces the entry in place
when the key exists, otherwise appends it (CPython dict semantics). -/
def setKey (r : Row) (k : String) (v : Json) : Row :=
  if rowHasKey r k then r.map (fun p => if p.1 == k then (k, v) else p)
  else r ++ [(k, v)]

/-- ASCII apostrophe, kept out of string literals. -/
def squote : String := String.singleton (Char.ofNat 39)

/-- Wrap a string in apostrophes, as Python `repr` does. -/
def q (s : String) : String := squote ++ s ++ squote

mutual

/-- Python `str(...)` of a parsed-JSON value (the code stringifies
response bodies into error messages this way). String escaping inside
`repr` is not reproduced; no claim depends on it. -/
def pyRepr : Json → String
  | .null => "None"
  | .bool true => "True"
  | .bool false => "False"
  | .num n => toString n
  | .str s => q s
  | .arr xs => "[" ++ pyReprArr xs ++ "]"
  | .obj l => "\x7b" ++ pyReprObj l ++ "\x7d"

def pyReprArr : List Json → String
  | [] => ""
  | [x] => pyRepr x
  | x :: xs => pyRepr x ++ ", " ++ pyReprArr xs

def pyReprObj : List (String × Json) → String
  | [] => ""
  | [p] => q p.1 ++ ": " ++ pyRepr p.2
  | p :: ps => q p.1 ++ ": " ++ pyRepr p.2 ++ ", " ++ pyReprObj ps

end

/-- Exception propagation: run the continuation unless a Python
exception (`.error`) is already in flight. -/
def exBind {α β : Type} (x : Except String α) (f : α → Except String β) :
    Except String β :=
  match x with
  | .error e => .error e
  | .ok a => f a

/-- `ThreadsInsights._build_error`: the uniform error value
`{error: {message, code?}}`; a falsy `code` (None or empty) omits the
`code` key. -/
def buildError (message : String) (code : Option String) : Json :=
  match code with
  | some c =>
    if c.isEmpty then Json.obj [("error", Json.obj [("message", Json.str message)])]
    else Json.obj [("error", Json.obj [("message", Json.str message), ("code", Json.str c)])]
  | none => Json.obj [("error", Json.obj [("message", Json.str message)])]

/-! ## URL query parsing (`urlparse` / `parse_qs`) -/

/-- Hex digit value, as `urllib`'s percent-decoder accepts it. -/
def hexVal (c : Char) : Option Nat :=
  if c.isDigit then some (c.toNat - 48)
  else if 65 ≤ c.toNat ∧ c.toNat ≤ 70 then some (c.toNat - 55)
  else if 97 ≤ c.toNat ∧ c.toNat ≤ 102 then some (c.toNat - 87)
  else none

/-- `urllib.parse.unquote_plus`: `+` becomes a space, `%XX` decodes,
invalid percent escapes are kept verbatim. -/
def unquotePlusChars : List Char → List Char
  | [] => []
  | '%' :: a :: b :: rest =>
    match hexVal a, hexVal b with
    | some x, some y => Char.ofNat (16 * x + y) :: unquotePlusChars rest
    | _, _ => '%' :: unquotePlusChars (a :: b :: rest)
  | '+' :: rest => ' ' :: unquotePlusChars rest
  | c :: rest => c :: unquotePlusChars rest

def unquotePlus (s : String) : String :=
  String.mk (unquotePlusChars s.toList)

/-- Split a character list on `&`, as `parse_qsl` splits the query. -/
def splitOnAmp : List Char → List (List Char)
  | [] => [[]]
  | '&' :: rest => [] :: splitOnAmp rest
  | c :: rest =>
    match splitOnAmp rest with
    | [] => [[c]]
    | f :: fs => (c :: f) :: fs

/-- The `query` component `urlparse` extracts: the part after the first
`?` of the pre-fragment (pre-`#`) portion of the URL. -/
def urlQueryChars (url : List Char) : List Char :=
  match (url.takeWhile (fun c => c != '#')).dropWhile (fun c => c != '?') with
  | [] => []
  | _ :: t => t

/-- `urllib.parse.parse_qsl` with default options: split on `&`, split
each field at the first `=`, drop fields without `=` and fields with an
empty value, percent-decode names and values. -/
def parseQsl (query : List Char) : List (String × String) :=
  (splitOnAmp query).filterMap (fun field =>
    match field.dropWhile (fun c => c != '=') with
    | [] => none
    | _ :: value =>
      if value.isEmpty then none
      else some (String.mk (unquotePlusChars (field.takeWhile (fun c => c != '='))),
                 String.mk (unquotePlusChars value)))

/-- `parse_qs(query).get("code", [None])[0]` followed by the `if not
auth_code:` truthiness test: `none` means the code is absent or falsy. -/
def extractAuthCode (redirectUrl : String) : Option String :=
  match (parseQsl (urlQueryChars redirectUrl.toList)).find? (fun p => p.1 == "code") with
  | none => none
  | some p => if p.2.isEmpty then none else some p.2

/-- `not cred` for a credential that may be unset (`None`) or empty. -/
def credMissing : Option String → Bool
  | none => true
  | some s => s.isEmpty

/-! ## Token manager: `exchange_code_for_token`

The POST to the token endpoint is an external collaborator, modelled as
its outcome: a transport exception (`.error`) or a status code with a
parsed JSON body.  The result is `Except`: `.error` marks a Python
exception escaping the function (reachable only when a 200 body is not a
dict, since `token_info.get` would then raise). -/

def exchangeCodeForToken (clientId clientSecret : Option String)
    (http : Except String (Nat × Json)) (redirectUrl : String) :
    Except String Json :=
  match extractAuthCode redirectUrl with
  | none => .ok (buildError "Authorization code not found in the URL." (some "MISSING_CODE"))
  | some _ =>
    if credMissing clientId || credMissing clientSecret then
      .ok (buildError ("Missing " ++ q "CLIENT_ID" ++ " or " ++ q "CLIENT_SECRET" ++ ".") (some "MISSING_ENV"))
    else
      match http with
      | .ok (status, body) =>
        if status = 200 then
          match body with
          | .obj _ =>
            .ok (Json.obj [("short_lived_token", body.mgetD "access_token"),
                           ("token_type", body.mgetD "token_type"),
                           ("expires_in", body.mgetD "expires_in"),
                           ("error", Json.null)])
          | _ => .error "AttributeError"
        else .ok (buildError (pyRepr body) (some "TOKEN_EXCHANGE_FAILED"))
      | .error e => .ok (buildError ("Request failed: " ++ e) (some "REQUEST_FAILED"))

/-- Truthiness of an optional string (`None` and `""` are falsy). -/
def optTruthy : Option String → Bool
  | none => false
  | some s => !s.isEmpty

/-- `get_long_lived_token`: `short_lived_token or self.short_lived_token`,
the `MISSING_TOKEN` / `MISSING_ENV` guards, then the GET to the exchange
endpoint (modelled as its outcome).  `.error` marks a Python exception
escaping the function (reachable only when a 200 body is not a dict,
since `info.get` would then raise). -/
def getLongLivedToken (clientSecret : Option String)
    (storedShortLivedToken shortLivedToken : Option String)
    (http : Except String (Nat × Json)) : Except String Json :=
  let tokenToUse :=
    if optTruthy shortLivedToken then shortLivedToken else storedShortLivedToken
  if !optTruthy tokenToUse then
    .ok (buildError "No short-lived token provided." (some "MISSING_TOKEN"))
  else if credMissing clientSecret then
    .ok (buildError ("Missing " ++ q "CLIENT_SECRET" ++ " in environment variables.")
          (some "MISSING_ENV"))
  else
    match http with
    | .ok (status, body) =>
      if status = 200 then
        match body with
        | .obj _ =>
          .ok (Json.obj [("long_lived_token", body.mgetD "access_token"),
                         ("error", Json.null)])
        | _ => .error "AttributeError"
      else .ok (buildError (pyRepr body) (some "LONG_TOKEN_EXCHANGE_FAILED"))
    | .error e => .ok (buildError ("Request failed: " ++ e) (some "REQUEST_FAILED"))

/-! ## Validators and query-parameter construction -/

def VALID_USER_METRICS : List String :=
  ["likes", "replies", "followers_count", "follower_demographics",
   "reposts", "views", "quotes"]

def VALID_MEDIA_METRICS : List String :=
  ["views", "likes", "replies", "reposts", "quotes", "shares"]

def VALID_THREAD_FIELDS : List String :=
  ["id", "media_product_type", "media_type", "media_url", "permalink", "owner",
   "username", "text", "timestamp", "shortcode", "thumbnail_url", "children",
   "is_quote_post", "quoted_post", "reposted_post", "has_replies", "alt_text",
   "link_attachment_url"]

/-- `if v: params[k] = v` for an optional integer: `None` and `0` are
falsy and add nothing. -/
def addIntParam (p : List (String × Json)) (k : String) (v : Option Int) :
    List (String × Json) :=
  match v with
  | none => p
  | some n => if n = 0 then p else p ++ [(k, Json.num n)]

/-- Query parameters built by `get_threads_user_insights` (after the
metric validation): base `metric` list, truthy `since`/`until`, then the
`breakdown` enum check, whose failure is the `INVALID_INPUT` error. -/
def threadsInsightsParams (metrics : List String) (since until_ : Option Int)
    (breakdown : Option String) : Except String (List (String × Json)) :=
  let p := [("metric", Json.str (String.intercalate "," metrics))]
  let p := addIntParam p "since" since
  let p := addIntParam p "until" until_
  match breakdown with
  | none => .ok p
  | some b =>
    if b.isEmpty then .ok p
    else if ["country", "city", "age", "gender"].contains b then
      .ok (p ++ [("breakdown", Json.str b)])
    else
      .error ("Invalid breakdown value. Must be " ++ q "country" ++ ", " ++
              q "city" ++ ", " ++ q "age" ++ ", or " ++ q "gender" ++ ".")

/-- Query parameters built by `get_list_user_threads`: base `fields`,
truthy `since`/`until`/`limit`, and the cursor tie-break where a truthy
`before` wins over `after`. -/
def listUserThreadsParams (fields : List String)
    (since until_ limit : Option Int) (before after : Option String) :
    List (String × Json) :=
  let p := [("fields", Json.str (String.intercalate "," fields))]
  let p := addIntParam p "since" since
  let p := addIntParam p "until" until_
  let p := addIntParam p "limit" limit
  let afterBranch :=
    match after with
    | some a => if a.isEmpty then p else p ++ [("after", Json.str a)]
    | none => p
  match before with
  | some b => if b.isEmpty then afterBranch else p ++ [("before", Json.str b)]
  | none => afterBranch

/-- Message of the validator error listing every disallowed name. -/
def invalidNamesMsg (kind : String) (invalid valid : List String) : String :=
  "Invalid " ++ kind ++ "(s): " ++ String.intercalate ", " invalid ++
  ". Valid " ++ kind ++ "s: " ++ String.intercalate ", " valid

/-- `get_threads_user_insights`.  The GET is an oracle from the built
query parameters to a transport outcome; headers and the access token are
part of the external HTTP collaborator and carry no logic. -/
def getThreadsUserInsights (metrics : List String)
    (since until_ : Option Int) (breakdown : Option String)
    (http : List (String × Json) → Except String (Nat × Json)) : Json :=
  let invalid := metrics.filter (fun m => !(VALID_USER_METRICS.contains m))
  if !invalid.isEmpty then
    buildError (invalidNamesMsg "metric" invalid VALID_USER_METRICS) (some "INVALID_INPUT")
  else
    match threadsInsightsParams metrics since until_ breakdown with
    | .error msg => buildError msg (some "INVALID_INPUT")
    | .ok ps =>
      match http ps with
      | .ok (status, body) =>
        if status = 200 then body
        else buildError (pyRepr body) (some "INSIGHTS_FETCH_FAILED")
      | .error e => buildError ("Request failed: " ++ e) (some "REQUEST_FAILED")

/-- `get_media_insights`: validation against the media allow-list, then a
GET on the media's insights endpoint (oracle keyed by the media id). -/
def getMediaInsights (metrics : List String)
    (http : Json → Except String (Nat × Json)) (mediaId : Json) : Json :=
  let invalid := metrics.filter (fun m => !(VALID_MEDIA_METRICS.contains m))
  if !invalid.isEmpty then
    buildError (invalidNamesMsg "metric" invalid VALID_MEDIA_METRICS) (some "INVALID_INPUT")
  else
    match http mediaId with
    | .ok (status, body) =>
      if status = 200 then body
      else buildError (pyRepr body) (some "MEDIA_INSIGHTS_FAILED")
    | .error e => buildError ("Request failed: " ++ e) (some "REQUEST_FAILED")

/-- `get_list_user_threads`: field validation, parameter building, GET. -/
def getListUserThreads (fields : List String)
    (since until_ limit : Option Int) (before after : Option String)
    (http : List (String × Json) → Except String (Nat × Json)) : Json :=
  let invalid := fields.filter (fun f => !(VALID_THREAD_FIELDS.contains f))
  if !invalid.isEmpty then
    buildError (invalidNamesMsg "field" invalid VALID_THREAD_FIELDS) (some "INVALID_INPUT")
  else
    match http (listUserThreadsParams fields since until_ limit before after) with
    | .ok (status, body) =>
      if status = 200 then body
      else buildError (pyRepr body) (some "THREADS_FETCH_FAILED")
    | .error e => buildError ("Request failed: " ++ e) (some "REQUEST_FAILED")

/-! ## Thread pager: `fetch_all_threads_with_pagination`

The claim quantifies over the sequence of pages the list-threads endpoint
returns, so the endpoint is the oracle: the finite list of responses it
hands back, consumed in call order.  Each loop iteration consumes the
next response; the loop body is translated statement by statement. -/

/-- `response.get("data", [])` followed by `all_threads.extend(...)`:
the extension iterates the value, so non-iterable data raises. -/
def pageData (r : Json) : Except String (List Json) :=
  match r with
  | .obj _ => asIterList ((r.mget "data").getD (Json.arr []))
  | _ => .error "AttributeError"

/-- `response.get("paging", {}).get("cursors", {}).get("after")`. -/
def pageAfterCursor (r : Json) : Except String Json :=
  match r with
  | .obj _ =>
    match (r.mget "paging").getD (Json.obj []) with
    | .obj pl =>
      match ((Json.obj pl).mget "cursors").getD (Json.obj []) with
      | .obj cl => .ok ((Json.obj cl).mgetD "after")
      | _ => .error "AttributeError"
    | _ => .error "AttributeError"
  | _ => .error "AttributeError"

/-- The `while True:` loop of `fetch_all_threads_with_pagination`,
accumulator threaded explicitly. -/
def fetchLoop (acc : List Json) : List Json → Except String (List Json)
  | [] => .ok acc
  | r :: rest =>
    if hasKeyB r "error" then .ok acc
    else
      match pageData r with
      | .error e => .error e
      | .ok d =>
        match pageAfterCursor r with
        | .error e => .error e
        | .ok cursor =>
          if cursor.truthy then fetchLoop (acc ++ d) rest
          else .ok (acc ++ d)

/-- `fetch_all_threads_with_pagination` over the endpoint's page
sequence. -/
def fetchAllThreadsWithPagination (pages : List Json) : Except String (List Json) :=
  fetchLoop [] pages

/-- Spec-side page data: the page's `data` array (nothing otherwise). -/
def specPageData (r : Json) : List Json :=
  match r.mget "data" with
  | some (.arr l) => l
  | _ => []

/-- Spec-side extracted cursor: the value at `paging.cursors.after`. -/
def specAfterCursor (r : Json) : Json :=
  (((r.mget "paging").getD (Json.obj [])).mget "cursors").getD (Json.obj []) |>.mgetD "after"

/-- Spec-side reading of the pager (from the specification's words):
concatenation, in call order, of each successful page's `data` array,
stopping at the first page whose response contains an error — discarding
that page — or whose extracted `paging.cursors.after` cursor is absent or
empty — keeping that page's data. -/
def specPagesConcat : List Json → List Json
  | [] => []
  | r :: rest =>
    if hasKeyB r "error" then []
    else
      specPageData r ++ (if (specAfterCursor r).truthy then specPagesConcat rest else [])

/-- Well-shaped endpoint page: a dict whose `data`, when present, is a
list, and whose `paging` / `paging.cursors`, when present, are dicts. -/
def WFPage (r : Json) : Bool :=
  match r with
  | .obj _ =>
    (match r.mget "data" with
     | none => true
     | some (.arr _) => true
     | some _ => false) &&
    (match r.mget "paging" with
     | none => true
     | some (.obj pl) =>
       (match (Json.obj pl).mget "cursors" with
        | none => true
        | some (.obj _) => true
        | some _ => false)
     | some _ => false)
  | _ => false

/-! ## Account-insights flattener: `convert_account_insights_to_dataframe` -/

/-- Two-digit zero padding, `strftime` style. -/
def pad2 (n : Nat) : String :=
  if n < 10 then "0" ++ toString n else toString n

/-- Proleptic-Gregorian civil date from days since 1970-01-01
(the standard days-from-civil inverse). -/
def civilFromDays (days : Nat) : Nat × Nat × Nat :=
  let z := days + 719468
  let era := z / 146097
  let doe := z % 146097
  let yoe := (doe - doe / 1460 + doe / 36524 - doe / 146096) / 365
  let y := yoe + era * 400
  let doy := doe - (365 * yoe + yoe / 4 - yoe / 100)
  let mp := (5 * doy + 2) / 153
  let d := doy - (153 * mp + 2) / 5 + 1
  let m := if mp < 10 then mp + 3 else mp - 9
  (if m ≤ 2 then y + 1 else y, m, d)

/-- `datetime.fromtimestamp(ts, tz=timezone.utc).strftime('%Y-%m-%d %H:%M:%S')`
for the non-negative timestamps the regex extraction yields. -/
def formatUtc (ts : Nat) : String :=
  let days := ts / 86400
  let secs := ts % 86400
  let c := civilFromDays days
  toString c.1 ++ "-" ++ pad2 c.2.1 ++ "-" ++ pad2 c.2.2 ++ " " ++
  pad2 (secs / 3600) ++ ":" ++ pad2 (secs % 3600 / 60) ++ ":" ++ pad2 (secs % 60)

/-- Fold a digit run into a number (`int` of the captured group). -/
def digitsToNat (ds : List Char) : Nat :=
  ds.foldl (fun a c => 10 * a + (c.toNat - 48)) 0

/-- `re.search(r"<pat>(\d+)", s)`: at the leftmost position where the
literal pattern is followed by at least one digit, the maximal digit run;
`none` when the regex does not match. -/
def findIntAfter (pat : List Char) : List Char → Option Nat
  | [] => none
  | c :: rest =>
    if pat.isPrefixOf (c :: rest) ∧ !((c :: rest).drop pat.length |>.takeWhile Char.isDigit |>.isEmpty) then
      some (digitsToNat ((c :: rest).drop pat.length |>.takeWhile Char.isDigit))
    else findIntAfter pat rest

/-- `since=(\d+)` extraction from the `paging.previous` URL, formatted. -/
def tsFieldOf (pat : String) (url : String) : Json :=
  match findIntAfter pat.toList url.toList with
  | some n => Json.str (formatUtc n)
  | none => Json.null

/-- The `since_val` / `until_val` computation: parse the
`paging.previous` URL when present.  Membership tests on non-dict
`paging` values follow Python (`in` over a list checks elements, over a
string checks substrings, and raises on scalars). -/
def parseSinceUntil (response : Json) : Except String (Json × Json) :=
  match response.mget "paging" with
  | none => .ok (.null, .null)
  | some p =>
    match p with
    | .obj _ =>
      match p.mget "previous" with
      | none => .ok (.null, .null)
      | some (.str url) => .ok (tsFieldOf "since=" url, tsFieldOf "until=" url)
      | some _ => .error "TypeError"
    | .arr l =>
      if l.any (fun x => match x with | .str s => s == "previous" | _ => false) then
        .error "TypeError"
      else .ok (.null, .null)
    | .str s =>
      if (s.splitOn "previous").length > 1 then .error "TypeError"
      else .ok (.null, .null)
    | _ => .error "TypeError"

/-- `",".join(xs)`: every element must be a string. -/
def joinStrs : List Json → Except String String
  | [] => .ok ""
  | [.str s] => .ok s
  | .str s :: x :: rest =>
    match joinStrs (x :: rest) with
    | .ok t => .ok (s ++ "," ++ t)
    | .error e => .error e
  | _ => .error "TypeError"

/-- `sum(v.get("value", 0) for v in values)`: Python arithmetic treats
booleans as 0/1 and raises `TypeError` on anything non-numeric. -/
def sumValues : List Json → Except String Int
  | [] => .ok 0
  | v :: rest =>
    match v with
    | .obj _ =>
      match (v.mget "value").getD (Json.num 0) with
      | .num n =>
        (match sumValues rest with
         | .ok m => .ok (n + m)
         | .error e => .error e)
      | .bool b =>
        (match sumValues rest with
         | .ok m => .ok ((if b then 1 else 0) + m)
         | .error e => .error e)
      | _ => .error "TypeError"
    | _ => .error "AttributeError"

/-- The shared base record built for every insight item. -/
def baseRowOf (sv uv tv : Json) (item : Json) : Row :=
  [("name", item.mgetD "name"), ("title", item.mgetD "title"),
   ("description", item.mgetD "description"), ("since", sv), ("until", uv),
   ("total_value", tv), ("id", item.mgetD "id")]

/-- `item.get("total_value", {}).get("value", None)`. -/
def totalValueField (item : Json) : Except String Json :=
  match item.mget "total_value" with
  | none => .ok Json.null
  | some t =>
    match t with
    | .obj _ => .ok (t.mgetD "value")
    | _ => .error "AttributeError"

/-- `result.get("dimension_values", [None])[0]`: `None` when the field
is absent (the default list's head), Python subscripting otherwise —
in particular `IndexError` when the field holds an empty list. -/
def dimensionValue0 (r : Json) : Except String Json :=
  match r.mget "dimension_values" with
  | none => .ok Json.null
  | some j => index0 j

/-- One demographics row per `result`: `dimension_key` is the comma-join,
`dimension_value` comes from `dimensionValue0`, `value` is
`result.get("value")`. -/
def demoResultRows (base : Row) (dk : String) : List Json → Except String (List Row)
  | [] => .ok []
  | r :: rest =>
    match r with
    | .obj _ =>
      exBind (dimensionValue0 r) (fun dv =>
        exBind (demoResultRows base dk rest) (fun rows =>
          .ok (setKey (setKey (setKey base "dimension_key" (Json.str dk))
                 "dimension_value" dv) "value" (r.mgetD "value") :: rows)))
    | _ => .error "AttributeError"

/-- The `for breakdown in breakdowns:` loop of the demographics branch. -/
def demoRows (base : Row) : List Json → Except String (List Row)
  | [] => .ok []
  | b :: rest =>
    match b with
    | .obj _ =>
      exBind (asIterList ((b.mget "dimension_keys").getD (Json.arr []))) (fun dkl =>
        exBind (joinStrs dkl) (fun dk =>
          exBind (asIterList ((b.mget "results").getD (Json.arr []))) (fun rs =>
            exBind (demoResultRows base dk rs) (fun rows =>
              exBind (demoRows base rest) (fun rows2 => .ok (rows ++ rows2))))))
    | _ => .error "AttributeError"

/-- The time-series branch: one row per `values` entry. -/
def tsRows (base : Row) : List Json → Except String (List Row)
  | [] => .ok []
  | v :: rest =>
    match v with
    | .obj _ =>
      exBind (tsRows base rest) (fun rows =>
        .ok (setKey (setKey base "value" (v.mgetD "value")) "end_time" (v.mgetD "end_time") :: rows))
    | _ => .error "AttributeError"

/-- The loop body of `convert_account_insights_to_dataframe` for one
insight item: base record, then the four-way shape branch. -/
def convertItem (sv uv : Json) (item : Json) : Except String (List Row) :=
  match item with
  | .obj _ =>
    exBind (totalValueField item) (fun tv =>
      let base := baseRowOf sv uv tv item
      if nameIs item "follower_demographics" && hasKeyB item "total_value" then
        exBind (asIterList (((item.mgetD "total_value").mget "breakdowns").getD (Json.arr [])))
          (fun bs => demoRows base bs)
      else if nameIs item "views" && hasKeyB item "values" then
        exBind (asIterList (item.mgetD "values")) (fun vs =>
          exBind (sumValues vs) (fun total =>
            .ok [setKey (setKey (setKey base "total_value" (Json.num total))
                   "value" Json.null) "end_time" Json.null]))
      else if hasKeyB item "values" then
        exBind (asIterList (item.mgetD "values")) (fun vs => tsRows base vs)
      else .ok [base])
  | _ => .error "AttributeError"

/-- `for item in data:` — rows accumulate in item order. -/
def convertData (sv uv : Json) : List Json → Except String (List Row)
  | [] => .ok []
  | item :: rest =>
    exBind (convertItem sv uv item) (fun rows =>
      exBind (convertData sv uv rest) (fun rows2 => .ok (rows ++ rows2)))

/-- `convert_account_insights_to_dataframe`: empty table when `data` is
absent, else the since/until parse followed by the per-item loop. -/
def convertAccountInsightsToDataframe (response : Json) : Except String (List Row) :=
  if !hasKeyB response "data" then .ok []
  else
    exBind (parseSinceUntil response) (fun su =>
      exBind (asIterList (response.mgetD "data")) (fun items =>
        convertData su.1 su.2 items))

/-! ## Threads flattener: `threads_json_to_dataframe` -/

/-- `[child.get("id") for child in children]`. -/
def childIds : List Json → Except String (List Json)
  | [] => .ok []
  | c :: rest =>
    match c with
    | .obj _ => exBind (childIds rest) (fun l => .ok (c.mgetD "id" :: l))
    | _ => .error "AttributeError"

/-- `thread.get("children", {}).get("data", [])`, the `if children:`
truthiness test, and the child-id projection. -/
def childrenIdsField (thread : Json) : Except String Json :=
  match thread.mget "children" with
  | none => .ok Json.null
  | some c =>
    match c with
    | .obj _ =>
      let dataVal := (c.mget "data").getD (Json.arr [])
      if !dataVal.truthy then .ok Json.null
      else
        exBind (asIterList dataVal) (fun kids =>
          exBind (childIds kids) (fun ids => .ok (Json.arr ids)))
    | _ => .error "AttributeError"

/-- `thread.get("owner", {}).get("id")`. -/
def ownerIdField (thread : Json) : Except String Json :=
  match thread.mget "owner" with
  | none => .ok Json.null
  | some o =>
    match o with
    | .obj _ => .ok (o.mgetD "id")
    | _ => .error "AttributeError"

/-- One flattened thread record. -/
def threadRow (thread : Json) : Except String Row :=
  match thread with
  | .obj _ =>
    exBind (ownerIdField thread) (fun ownerId =>
      exBind (childrenIdsField thread) (fun kids =>
        .ok [("id", thread.mgetD "id"),
             ("media_product_type", thread.mgetD "media_product_type"),
             ("media_type", thread.mgetD "media_type"),
             ("media_url", thread.mgetD "media_url"),
             ("permalink", thread.mgetD "permalink"),
             ("owner_id", ownerId),
             ("username", thread.mgetD "username"),
             ("text", thread.mgetD "text"),
             ("timestamp", thread.mgetD "timestamp"),
             ("shortcode", thread.mgetD "shortcode"),
             ("is_quote_post", thread.mgetD "is_quote_post"),
             ("has_replies", thread.mgetD "has_replies"),
             ("children_ids", kids)]))
  | _ => .error "AttributeError"

/-- `threads_json_to_dataframe`. -/
def threadsJsonToDataframe : List Json → Except String (List Row)
  | [] => .ok []
  | t :: rest =>
    exBind (threadRow t) (fun r =>
      exBind (threadsJsonToDataframe rest) (fun rs => .ok (r :: rs)))

/-! ## Per-media insights: `fetch_insights_for_media_in_dataframe` -/

/-- `fetch_insights_for_media_in_dataframe`: for every value of the `id`
column, call `get_media_insights`; skip responses carrying an `error`
key; collect `{media_id, insights}` pairs. -/
def fetchInsightsForMedia (metrics : List String)
    (http : Json → Except String (Nat × Json)) (df : List Row) : List Json :=
  (df.map (fun r => (rowGet r "id").getD Json.null)).filterMap (fun mid =>
    let resp := getMediaInsights metrics http mid
    if hasKeyB resp "error" then none
    else some (Json.obj [("media_id", mid), ("insights", resp)]))

/-! ## Insights flattener: `insights_to_dataframe` -/

/-- The inner loop body: `metric_name = insight["name"]`, the
`"values" in insight and len(...) > 0` guard, and
`row[metric_name] = insight["values"][0].get("value")`. -/
def insightEntry (row : Row) (insight : Json) : Except String Row :=
  match insight with
  | .obj _ =>
    match insight.mget "name" with
    | none => .error "KeyError"
    | some (.str n) =>
      if hasKeyB insight "values" then
        exBind (jLen (insight.mgetD "values")) (fun lv =>
          if lv > 0 then
            exBind (index0 (insight.mgetD "values")) (fun v0 =>
              match v0 with
              | .obj _ => .ok (setKey row n (v0.mgetD "value"))
              | _ => .error "AttributeError")
          else .ok row)
      else .ok row
    | some _ => .error "TypeError"
  | _ => .error "TypeError"

/-- `for insight in ins_data["data"]:`. -/
def insightsRowLoop (row : Row) : List Json → Except String Row
  | [] => .ok row
  | i :: rest => exBind (insightEntry row i) (fun row2 => insightsRowLoop row2 rest)

/-- One `insights_list` item: `none` when its payload lacks a `data`
key, else the single row keyed by `media_id`. -/
def insightsItemRow (item : Json) : Except String (Option Row) :=
  match item with
  | .obj _ =>
    match item.mget "media_id" with
    | none => .error "KeyError"
    | some mid =>
      match item.mget "insights" with
      | none => .error "KeyError"
      | some ins =>
        if hasKeyB ins "data" then
          exBind (asIterList (ins.mgetD "data")) (fun ds =>
            exBind (insightsRowLoop [("media_id", mid)] ds) (fun row => .ok (some row)))
        else .ok none
  | _ => .error "TypeError"

/-- `insights_to_dataframe`. -/
def insightsToDataframe : List Json → Except String (List Row)
  | [] => .ok []
  | item :: rest =>
    exBind (insightsItemRow item) (fun o =>
      exBind (insightsToDataframe rest) (fun rs =>
        .ok (match o with | some r => r :: rs | none => rs)))

/-! ## Merge: `pd.merge(..., how="left")` and the orchestrator -/

mutual

/-- Structural equality of JSON values (Python `==` on parsed JSON). -/
def jsonEqB : Json → Json → Bool
  | .null, .null => true
  | .bool a, .bool b => a == b
  | .num a, .num b => a == b
  | .str a, .str b => a == b
  | .arr a, .arr b => jsonListEqB a b
  | .obj a, .obj b => jsonObjEqB a b
  | _, _ => false

def jsonListEqB : List Json → List Json → Bool
  | [], [] => true
  | a :: as_, b :: bs => jsonEqB a b && jsonListEqB as_ bs
  | _, _ => false

def jsonObjEqB : List (String × Json) → List (String × Json) → Bool
  | [], [] => true
  | a :: as_, b :: bs => a.1 == b.1 && jsonEqB a.2 b.2 && jsonObjEqB as_ bs
  | _, _ => false

end

/-- Modelled from the spec: the column set of the external tabular-data
collaborator for a row list — keys in first-appearance order
(`pd.DataFrame(rows).columns`). -/
def dfColumns (rows : List Row) : List String :=
  rows.foldl (fun acc r => acc ++ ((r.map Prod.fst).filter (fun k => !acc.contains k))) []

/-- Modelled from the spec: completion of a row to the full column set,
absent cells null (`NaN`). -/
def completeRow (cols : List String) (r : Row) : Row :=
  cols.map (fun c => (c, (rowGet r c).getD Json.null))

/-- The right-table rows matching one left row on
`left_on="id"`, `right_on="media_id"`. -/
def matchRows (lr : Row) (right : List Row) : List Row :=
  right.filter (fun rr => jsonEqB ((rowGet rr "media_id").getD Json.null)
                                  ((rowGet lr "id").getD Json.null))

/-- Modelled from the spec: `pd.merge(left, right, left_on="id",
right_on="media_id", how="left")` — pandas is the external tabular-data
collaborator, so its left-outer join is taken at its documented meaning:
every left row joined with each matching right row, or padded with null
cells when no right row matches. -/
def mergeLeft (left right : List Row) : List Row :=
  let cols := dfColumns right
  left.flatMap (fun lr =>
    match matchRows lr right with
    | [] => [lr ++ cols.map (fun c => (c, Json.null))]
    | ms => ms.map (fun rr => lr ++ completeRow cols rr))

/-- `combined_df.drop(columns=["media_id"])`. -/
def dropMediaIdCol (rows : List Row) : List Row :=
  rows.map (fun r => r.filter (fun p => p.1 != "media_id"))

/-- The merge stage of `fetch_and_merge_threads_with_insights`. -/
def mergeThreadsInsights (left right : List Row) : List Row :=
  dropMediaIdCol (mergeLeft left right)

/-- `fetch_and_merge_threads_with_insights`: page all threads, flatten,
fetch per-media insights, flatten, left-join, drop the join key, prepend
the constant `client` and `captured_at` columns.  `capturedAt` is the
ambient capture-time timestamp. -/
def fetchAndMergeThreadsWithInsights (pages : List Json) (metrics : List String)
    (http : Json → Except String (Nat × Json)) (clientName capturedAt : String) :
    Except String (List Row) :=
  exBind (fetchAllThreadsWithPagination pages) (fun threads =>
    if threads.isEmpty then .ok []
    else
      exBind (threadsJsonToDataframe threads) (fun threadsDf =>
        if threadsDf.isEmpty then .ok threadsDf
        else
          let il := fetchInsightsForMedia metrics http threadsDf
          if il.isEmpty then .ok threadsDf
          else
            exBind (insightsToDataframe il) (fun idf =>
              if idf.isEmpty then .ok threadsDf
              else
                .ok ((mergeThreadsInsights threadsDf idf).map (fun r =>
                  ("client", Json.str clientName) :: ("captured_at", Json.str capturedAt) :: r)))))

/-! ## Well-formedness predicates and spec-side row descriptions -/

/-- Well-shaped demographics result: a dict whose `dimension_values`,
when present, is a non-empty list (the present-but-empty case makes the
code raise `IndexError`; see the C2 counterexample). -/
def WFDemoResult (r : Json) : Bool :=
  match r with
  | .obj _ =>
    (match r.mget "dimension_values" with
     | none => true
     | some (.arr (_ :: _)) => true
     | some _ => false)
  | _ => false

/-- Well-shaped breakdown: a dict whose `dimension_keys`, when present,
is a list of strings and whose `results`, when present, is a list of
well-shaped results. -/
def WFDemoBreakdown (b : Json) : Bool :=
  match b with
  | .obj _ =>
    (match b.mget "dimension_keys" with
     | none => true
     | some (.arr ks) => ks.all (fun k => match k with | .str _ => true | _ => false)
     | some _ => false) &&
    (match b.mget "results" with
     | none => true
     | some (.arr rs) => rs.all WFDemoResult
     | some _ => false)
  | _ => false

/-- A `follower_demographics` item with a `total_value.breakdowns` list
of well-shaped breakdowns. -/
def WFDemoItem (item : Json) : Bool :=
  nameIs item "follower_demographics" &&
  (match item.mget "total_value" with
   | some (.obj tvl) =>
     (match (Json.obj tvl).mget "breakdowns" with
      | some (.arr bs) => bs.all WFDemoBreakdown
      | _ => false)
   | _ => false)

/-- The breakdowns list of a well-formed demographics item. -/
def breakdownsOf (item : Json) : List Json :=
  match (item.mgetD "total_value").mget "breakdowns" with
  | some (.arr bs) => bs
  | _ => []

/-- The results list of a breakdown. -/
def resultsOf (b : Json) : List Json :=
  match b.mget "results" with
  | some (.arr rs) => rs
  | _ => []

/-- The dimension keys of a breakdown, as strings. -/
def dimKeysOf (b : Json) : List String :=
  match b.mget "dimension_keys" with
  | some (.arr ks) => ks.map (fun k => match k with | .str s => s | _ => "")
  | _ => []

/-- Spec-side `dimension_value`: the first element of the result's
`dimension_values` list, null when the field is absent. -/
def specDimValue (r : Json) : Json :=
  match r.mget "dimension_values" with
  | some (.arr (v :: _)) => v
  | _ => Json.null

/-- Comma-join of a string list (the spec's "comma-joined"). -/
def commaJoin : List String → String
  | [] => ""
  | [s] => s
  | s :: rest => s ++ "," ++ commaJoin rest

/-- Spec-side demographics flattening: one row per (breakdown, result)
pair, each row the shared base record followed by `dimension_key` (the
comma-join of the breakdown's dimension keys), `dimension_value` and
`value`. -/
def specDemoRows (sv uv tv : Json) (item : Json) : List Row :=
  (breakdownsOf item).flatMap (fun b =>
    (resultsOf b).map (fun r =>
      baseRowOf sv uv tv item ++
      [("dimension_key", Json.str (commaJoin (dimKeysOf b))),
       ("dimension_value", specDimValue r),
       ("value", r.mgetD "value")]))

/-- A `views` item whose `values` is a list of dicts whose `value`
fields, when present, are numbers, and whose `total_value`, when
present, is a dict. -/
def WFViewsItem (item : Json) : Bool :=
  nameIs item "views" &&
  (match item.mget "total_value" with
   | none => true
   | some (.obj _) => true
   | some _ => false) &&
  (match item.mget "values" with
   | some (.arr vs) =>
     vs.all (fun v =>
       match v with
       | .obj _ =>
         (match v.mget "value" with
          | none => true
          | some (.num _) => true
          | some _ => false)
       | _ => false)
   | _ => false)

/-- The `values` list of an item. -/
def valuesOf (item : Json) : List Json :=
  match item.mget "values" with
  | some (.arr vs) => vs
  | _ => []

/-- Spec-side total for a `views` item: the sum of the entries' `value`
fields, a missing `value` contributing 0. -/
def specViewsTotal : List Json → Int
  | [] => 0
  | v :: rest =>
    (match v.mget "value" with
     | some (.num n) => n
     | _ => 0) + specViewsTotal rest

/-- Spec-side `views` row: the base record with `total_value` replaced by
the aggregate sum and `value` / `end_time` null. -/
def specViewsRow (sv uv : Json) (item : Json) : Row :=
  [("name", item.mgetD "name"), ("title", item.mgetD "title"),
   ("description", item.mgetD "description"), ("since", sv), ("until", uv),
   ("total_value", Json.num (specViewsTotal (valuesOf item))),
   ("id", item.mgetD "id"),
   ("value", Json.null), ("end_time", Json.null)]

/-- Well-shaped media insight: a dict with a string `name` whose
`values`, when present, is a list with a dict first element (or empty). -/
def WFInsight (i : Json) : Bool :=
  match i with
  | .obj _ =>
    (match i.mget "name" with
     | some (.str _) => true
     | _ => false) &&
    (match i.mget "values" with
     | none => true
     | some (.arr []) => true
     | some (.arr (v :: _)) => (match v with | .obj _ => true | _ => false)
     | some _ => false)
  | _ => false

/-- The metric names of a list of insights. -/
def namesOf (insights : List Json) : List String :=
  insights.filterMap (fun i =>
    match i.mget "name" with
    | some (.str n) => some n
    | _ => none)

/-- Spec-side row entries for one media's insights: one column per named
insight with a non-empty `values` list, holding the first entry's
`value` — everything past index 0 discarded. -/
def entriesSpec (insights : List Json) : Row :=
  insights.filterMap (fun i =>
    match i.mget "name", i.mget "values" with
    | some (.str n), some (.arr (v :: _)) => some (n, v.mgetD "value")
    | _, _ => none)

/-! # Theorems -/

@[simp] theorem exBind_ok {α β : Type} (a : α) (f : α → Except String β) :
    exBind (.ok a) f = f a := rfl

@[simp] theorem exBind_error {α β : Type} (e : String) (f : α → Except String β) :
    exBind (.error e) f = .error e := rfl

/-- On a well-shaped page, the data extraction of the loop body yields
exactly the page's `data` array (empty when absent). -/
theorem pageData_wf (r : Json) (h : WFPage r = true) :
    pageData r = .ok (specPageData r) := by
  cases r with
  | obj l =>
    simp only [WFPage, Bool.and_eq_true] at h
    simp only [pageData, specPageData]
    rcases hd : (Json.obj l).mget "data" with _ | j
    · simp [hd, asIterList]
    · rw [hd] at h
      cases j <;> simp_all [asIterList]
  | null => simp [WFPage] at h
  | bool b => simp [WFPage] at h
  | num n => simp [WFPage] at h
  | str s => simp [WFPage] at h
  | arr l => simp [WFPage] at h

/-- On a well-shaped page, the cursor extraction of the loop body yields
the value at `paging.cursors.after`. -/
theorem pageAfterCursor_wf (r : Json) (h : WFPage r = true) :
    pageAfterCursor r = .ok (specAfterCursor r) := by
  cases r with
  | obj l =>
    simp only [WFPage, Bool.and_eq_true] at h
    simp only [pageAfterCursor, specAfterCursor]
    rcases hp : (Json.obj l).mget "paging" with _ | j
    · rw [hp] at h
      rfl
    · rw [hp] at h
      cases j with
      | obj pl =>
        simp only [Option.getD_some] at h ⊢
        rcases hc : (Json.obj pl).mget "cursors" with _ | c
        · rfl
        · rw [hc] at h
          cases c with
          | obj cl => rfl
          | null => exact Bool.noConfusion h.2
          | bool b => exact Bool.noConfusion h.2
          | num n => exact Bool.noConfusion h.2
          | str s => exact Bool.noConfusion h.2
          | arr a => exact Bool.noConfusion h.2
      | null => simp at h
      | bool b => simp at h
      | num n => simp at h
      | str s => simp at h
      | arr a => simp at h
  | null => simp [WFPage] at h
  | bool b => simp [WFPage] at h
  | num n => simp [WFPage] at h
  | str s => simp [WFPage] at h
  | arr l => simp [WFPage] at h

/-- The pagination loop, for any accumulator, appends exactly the
spec-side concatenation of the remaining pages. -/
theorem fetchLoop_spec (pages : List Json) :
    ∀ acc : List Json, pages.all WFPage = true →
      fetchLoop acc pages = .ok (acc ++ specPagesConcat pages) := by
  induction pages with
  | nil => intro acc _; simp [fetchLoop, specPagesConcat]
  | cons r rest ih =>
    intro acc h
    rw [List.all_cons, Bool.and_eq_true] at h
    simp only [fetchLoop, specPagesConcat]
    by_cases he : hasKeyB r "error" = true
    · simp [he]
    · rw [Bool.not_eq_true] at he
      rw [he, pageData_wf r h.1, pageAfterCursor_wf r h.1]
      simp only [Bool.false_eq_true, if_false]
      by_cases ht : (specAfterCursor r).truthy = true
      · rw [ht, if_pos rfl, ih (acc ++ specPageData r) h.2]
        simp [List.append_assoc]
      · rw [Bool.not_eq_true] at ht
        rw [ht]
        simp

/-- C1: over every well-shaped sequence of pages returned by the
list-threads endpoint, `fetch_all_threads_with_pagination` returns the
concatenation, in call order, of each successful page's `data` array; it
stops at the first page whose extracted `paging.cursors.after` cursor is
absent or falsy (keeping that page's data) or whose response carries an
`error` key (returning only the records accumulated from prior pages,
without failing). -/
theorem c1_fetch_all_pagination (pages : List Json)
    (h : pages.all WFPage = true) :
    fetchAllThreadsWithPagination pages = .ok (specPagesConcat pages) := by
  simpa using fetchLoop_spec pages [] h

/-- C1 witness: three fixture pages (cursors B → C → absent) concatenate
all three pages' data, in order. -/
theorem c1_fetch_all_pagination_witness :
    ([Json.obj [("data", Json.arr [Json.str "t1", Json.str "t2"]),
                ("paging", Json.obj [("cursors", Json.obj [("after", Json.str "B")])])],
      Json.obj [("data", Json.arr [Json.str "t3"]),
                ("paging", Json.obj [("cursors", Json.obj [("after", Json.str "C")])])],
      Json.obj [("data", Json.arr [Json.str "t4"])]].all WFPage = true) ∧
    fetchAllThreadsWithPagination
      [Json.obj [("data", Json.arr [Json.str "t1", Json.str "t2"]),
                 ("paging", Json.obj [("cursors", Json.obj [("after", Json.str "B")])])],
       Json.obj [("data", Json.arr [Json.str "t3"]),
                 ("paging", Json.obj [("cursors", Json.obj [("after", Json.str "C")])])],
       Json.obj [("data", Json.arr [Json.str "t4"])]] =
      .ok [Json.str "t1", Json.str "t2", Json.str "t3", Json.str "t4"] :=
  ⟨rfl, c1_fetch_all_pagination _ rfl⟩

/-- C4: whenever a requested metric (or field) list contains at least one
name outside the endpoint's allow-list, `get_threads_user_insights`
(resp. `get_list_user_threads`) returns the `INVALID_INPUT` error whose
message joins the complete filtered list of disallowed names — and that
filtered list contains every disallowed requested name, not just the
first. -/
theorem c4_validator_lists_every_invalid_name :
    (∀ (metrics : List String) (since until_ : Option Int) (breakdown : Option String)
       (http : List (String × Json) → Except String (Nat × Json)),
       (metrics.filter (fun m => !(VALID_USER_METRICS.contains m))).isEmpty = false →
       getThreadsUserInsights metrics since until_ breakdown http =
         buildError (invalidNamesMsg "metric"
           (metrics.filter (fun m => !(VALID_USER_METRICS.contains m))) VALID_USER_METRICS)
           (some "INVALID_INPUT") ∧
       ∀ m ∈ metrics, VALID_USER_METRICS.contains m = false →
         m ∈ metrics.filter (fun m => !(VALID_USER_METRICS.contains m))) ∧
    (∀ (fields : List String) (since until_ limit : Option Int) (before after : Option String)
       (http : List (String × Json) → Except String (Nat × Json)),
       (fields.filter (fun f => !(VALID_THREAD_FIELDS.contains f))).isEmpty = false →
       getListUserThreads fields since until_ limit before after http =
         buildError (invalidNamesMsg "field"
           (fields.filter (fun f => !(VALID_THREAD_FIELDS.contains f))) VALID_THREAD_FIELDS)
           (some "INVALID_INPUT") ∧
       ∀ f ∈ fields, VALID_THREAD_FIELDS.contains f = false →
         f ∈ fields.filter (fun f => !(VALID_THREAD_FIELDS.contains f))) := by
  constructor
  · intro metrics since until_ breakdown http h
    refine ⟨?_, ?_⟩
    · simp only [getThreadsUserInsights, h, Bool.not_false, if_pos]
    · intro m hm hval
      rw [List.mem_filter]
      exact ⟨hm, by rw [hval]; rfl⟩
  · intro fields since until_ limit before after http h
    refine ⟨?_, ?_⟩
    · simp only [getListUserThreads, h, Bool.not_false, if_pos]
    · intro f hf hval
      rw [List.mem_filter]
      exact ⟨hf, by rw [hval]; rfl⟩

/-- C4 witness: two disallowed metrics are both listed, and a disallowed
field is listed. -/
theorem c4_validator_lists_every_invalid_name_witness :
    (getThreadsUserInsights ["bogus1", "likes", "bogus2"] none none none
        (fun _ => .error "down") =
      buildError (invalidNamesMsg "metric" ["bogus1", "bogus2"] VALID_USER_METRICS)
        (some "INVALID_INPUT") ∧
      "bogus2" ∈ ["bogus1", "likes", "bogus2"].filter
        (fun m => !(VALID_USER_METRICS.contains m))) ∧
    getListUserThreads ["bogusF", "id"] none none none none none
        (fun _ => .error "down") =
      buildError (invalidNamesMsg "field" ["bogusF"] VALID_THREAD_FIELDS)
        (some "INVALID_INPUT") := by
  refine ⟨⟨?_, ?_⟩, ?_⟩
  · exact (c4_validator_lists_every_invalid_name.1 ["bogus1", "likes", "bogus2"]
      none none none (fun _ => .error "down") rfl).1
  · exact (c4_validator_lists_every_invalid_name.1 ["bogus1", "likes", "bogus2"]
      none none none (fun _ => .error "down") rfl).2 "bogus2" (by simp) rfl
  · exact (c4_validator_lists_every_invalid_name.2 ["bogusF", "id"]
      none none none none none (fun _ => .error "down") rfl).1

/-- A zero integer parameter is not appended (`if v:` is false). -/
theorem addIntParam_zero (p : List (String × Json)) (k : String) :
    addIntParam p k (some 0) = p := rfl

/-- Appending an integer parameter never introduces a different key. -/
theorem addIntParam_keys_ne (p : List (String × Json)) (k kp : String)
    (v : Option Int) (h : kp ∉ p.map Prod.fst) (hne : kp ≠ k) :
    kp ∉ (addIntParam p k v).map Prod.fst := by
  cases v with
  | none => exact h
  | some n =>
    by_cases hz : n = 0
    · simp only [addIntParam, if_pos hz]
      exact h
    · simp only [addIntParam, if_neg hz]
      rw [List.map_append]
      intro hmem
      rcases List.mem_append.mp hmem with h2 | h2
      · exact h h2
      · simp at h2
        exact hne h2

/-- C10: in both `get_threads_user_insights` and `get_list_user_threads`,
a `since`, `until` or `limit` equal to `0` is dropped from the outgoing
query parameters — whatever the other arguments are — because the code
tests truthiness (`if since:`) rather than presence, so a zero bound is
never transmitted. -/
theorem c10_zero_bounds_omitted :
    (∀ (metrics : List String) (since until_ : Option Int) (breakdown : Option String)
       (ps : List (String × Json)),
       threadsInsightsParams metrics since until_ breakdown = .ok ps →
       (since = some 0 → "since" ∉ ps.map Prod.fst) ∧
       (until_ = some 0 → "until" ∉ ps.map Prod.fst)) ∧
    (∀ (fields : List String) (since until_ limit : Option Int)
       (before after : Option String),
       (since = some 0 →
         "since" ∉ (listUserThreadsParams fields since until_ limit before after).map Prod.fst) ∧
       (until_ = some 0 →
         "until" ∉ (listUserThreadsParams fields since until_ limit before after).map Prod.fst) ∧
       (limit = some 0 →
         "limit" ∉ (listUserThreadsParams fields since until_ limit before after).map Prod.fst)) := by
  constructor
  · intro metrics since until_ breakdown ps h
    have hcore : ∀ kp : String,
        kp ∉ (addIntParam (addIntParam
            [("metric", Json.str (String.intercalate "," metrics))]
            "since" since) "until" until_).map Prod.fst →
        kp ≠ "breakdown" →
        kp ∉ ps.map Prod.fst := by
      intro kp hkp hkb
      simp only [threadsInsightsParams] at h
      cases breakdown with
      | none =>
        rw [Except.ok.injEq] at h
        subst h
        exact hkp
      | some b =>
        dsimp only at h
        by_cases hb : b.isEmpty = true
        · rw [if_pos hb, Except.ok.injEq] at h
          subst h
          exact hkp
        · rw [if_neg hb] at h
          by_cases hc : (["country", "city", "age", "gender"].contains b) = true
          · rw [if_pos hc, Except.ok.injEq] at h
            subst h
            rw [List.map_append]
            intro hmem
            rcases List.mem_append.mp hmem with h2 | h2
            · exact hkp h2
            · simp at h2
              exact hkb h2
          · rw [if_neg hc] at h
            exact Except.noConfusion h
    refine ⟨?_, ?_⟩
    · intro hs
      subst hs
      refine hcore "since" ?_ (by decide)
      rw [addIntParam_zero]
      exact addIntParam_keys_ne _ "until" "since" until_ (by simp) (by decide)
    · intro hu
      subst hu
      refine hcore "until" ?_ (by decide)
      rw [addIntParam_zero]
      exact addIntParam_keys_ne _ "since" "until" since (by simp) (by decide)
  · intro fields since until_ limit before after
    have hcarry : ∀ kp : String,
        kp ∉ (addIntParam (addIntParam (addIntParam
            [("fields", Json.str (String.intercalate "," fields))]
            "since" since) "until" until_) "limit" limit).map Prod.fst →
        kp ≠ "before" → kp ≠ "after" →
        kp ∉ (listUserThreadsParams fields since until_ limit before after).map Prod.fst := by
      intro kp hkp hkb hka
      have happend : ∀ (κ : String) (v : Json), κ = "before" ∨ κ = "after" →
          kp ∉ ((addIntParam (addIntParam (addIntParam
              [("fields", Json.str (String.intercalate "," fields))]
              "since" since) "until" until_) "limit" limit) ++ [(κ, v)]).map Prod.fst := by
        intro κ v hκ
        rw [List.map_append]
        intro hmem
        rcases List.mem_append.mp hmem with h2 | h2
        · exact hkp h2
        · simp at h2
          rcases hκ with rfl | rfl
          · exact hkb h2
          · exact hka h2
      simp only [listUserThreadsParams]
      cases before with
      | none =>
        cases after with
        | none => exact hkp
        | some a =>
          dsimp only
          by_cases ha : a.isEmpty = true
          · rw [if_pos ha]
            exact hkp
          · rw [if_neg ha]
            exact happend "after" (Json.str a) (Or.inr rfl)
      | some b =>
        dsimp only
        by_cases hb : b.isEmpty = true
        · rw [if_pos hb]
          cases after with
          | none => exact hkp
          | some a =>
            dsimp only
            by_cases ha : a.isEmpty = true
            · rw [if_pos ha]
              exact hkp
            · rw [if_neg ha]
              exact happend "after" (Json.str a) (Or.inr rfl)
        · rw [if_neg hb]
          exact happend "before" (Json.str b) (Or.inl rfl)
    refine ⟨?_, ?_, ?_⟩
    · intro hs
      subst hs
      refine hcarry "since" ?_ (by decide) (by decide)
      rw [addIntParam_zero]
      exact addIntParam_keys_ne _ "limit" "since" limit
        (addIntParam_keys_ne _ "until" "since" until_ (by simp) (by decide)) (by decide)
    · intro hu
      subst hu
      refine hcarry "until" ?_ (by decide) (by decide)
      rw [addIntParam_zero]
      exact addIntParam_keys_ne _ "limit" "until" limit
        (addIntParam_keys_ne _ "since" "until" since (by simp) (by decide)) (by decide)
    · intro hl
      subst hl
      refine hcarry "limit" ?_ (by decide) (by decide)
      rw [addIntParam_zero]
      exact addIntParam_keys_ne _ "until" "limit" until_
        (addIntParam_keys_ne _ "since" "limit" since (by simp) (by decide)) (by decide)

/-- C10 witness: a zero bound vanishes even when the other bounds are
nonzero or a cursor is present. -/
theorem c10_zero_bounds_omitted_witness :
    (threadsInsightsParams ["views"] (some 0) (some 1700000000) none =
       .ok [("metric", Json.str "views"), ("until", Json.num 1700000000)] ∧
     "since" ∉ ([("metric", Json.str "views"), ("until", Json.num 1700000000)] :
        List (String × Json)).map Prod.fst) ∧
    "limit" ∉ (listUserThreadsParams ["id"] (some 1) (some 2) (some 0)
        none (some "CUR")).map Prod.fst := by
  refine ⟨⟨rfl, ?_⟩, ?_⟩
  · exact (c10_zero_bounds_omitted.1 ["views"] (some 0) (some 1700000000) none
      [("metric", Json.str "views"), ("until", Json.num 1700000000)] rfl).1 rfl
  · exact (c10_zero_bounds_omitted.2 ["id"] (some 1) (some 2) (some 0)
      none (some "CUR")).2.2 rfl

/-- C8: when the redirect URL's query string carries no (truthy) `code`
parameter, `exchange_code_for_token` returns the `MISSING_CODE` error and
its result does not depend on the token-endpoint collaborator at all —
no HTTP call is observable. -/
theorem c8_missing_code_no_http_call
    (cid cs : Option String) (h1 h2 : Except String (Nat × Json)) (url : String)
    (h : extractAuthCode url = none) :
    exchangeCodeForToken cid cs h1 url =
      .ok (buildError "Authorization code not found in the URL." (some "MISSING_CODE")) ∧
    exchangeCodeForToken cid cs h1 url = exchangeCodeForToken cid cs h2 url := by
  refine ⟨?_, ?_⟩ <;> simp only [exchangeCodeForToken, h]

/-- C8 witness: a concrete callback URL without a `code` parameter. -/
theorem c8_missing_code_no_http_call_witness :
    extractAuthCode "https://oauth.pstmn.io/v1/browser-callback?foo=bar" = none ∧
    exchangeCodeForToken (some "cid") (some "secret")
        (.ok (200, Json.obj [("access_token", Json.str "tok")]))
        "https://oauth.pstmn.io/v1/browser-callback?foo=bar" =
      .ok (buildError "Authorization code not found in the URL." (some "MISSING_CODE")) :=
  ⟨rfl,
   (c8_missing_code_no_http_call (some "cid") (some "secret")
      (.ok (200, Json.obj [("access_token", Json.str "tok")]))
      (.error "unused") "https://oauth.pstmn.io/v1/browser-callback?foo=bar" rfl).1⟩

/-- C3 counterexample: `convert_account_insights_to_dataframe` is a
public operation, yet on a `follower_demographics` item whose result has
a present-but-empty `dimension_values` list it raises `IndexError`
(`result.get("dimension_values", [None])[0]` subscripts an empty list)
instead of returning an error value. -/
theorem c3_converter_raises_counterexample :
    convertAccountInsightsToDataframe (Json.obj [("data", Json.arr [Json.obj
      [("name", Json.str "follower_demographics"),
       ("total_value", Json.obj [("breakdowns", Json.arr [Json.obj
          [("dimension_keys", Json.arr [Json.str "country"]),
           ("results", Json.arr [Json.obj [("dimension_values", Json.arr []),
                                           ("value", Json.num 5)]])]])])]])]) =
      .error "IndexError" := rfl

/-- C3 (amended): every HTTP-performing operation — code/token exchange,
long-lived token exchange, user insights, thread listing, media
insights — returns errors as values; in particular a transport-level
exception is converted to the `REQUEST_FAILED` error value, and the two
token exchanges return a value (never raise) whenever any 200 body is a
dict; the DataFrame conversion helpers, however, are excluded (see the
counterexample). -/
theorem c3_http_errors_as_values :
    (∀ (cid cs : Option String) (url c e : String),
       extractAuthCode url = some c → credMissing cid = false → credMissing cs = false →
       exchangeCodeForToken cid cs (.error e) url =
         .ok (buildError ("Request failed: " ++ e) (some "REQUEST_FAILED"))) ∧
    (∀ (cid cs : Option String) (url : String) (http : Except String (Nat × Json)),
       (∀ b : Json, http = .ok (200, b) → ∃ l, b = Json.obj l) →
       ∃ j : Json, exchangeCodeForToken cid cs http url = .ok j) ∧
    (∀ (metrics : List String) (since until_ : Option Int) (e : String),
       (metrics.filter (fun m => !(VALID_USER_METRICS.contains m))).isEmpty = true →
       getThreadsUserInsights metrics since until_ none (fun _ => .error e) =
         buildError ("Request failed: " ++ e) (some "REQUEST_FAILED")) ∧
    (∀ (fields : List String) (since until_ limit : Option Int)
       (before after : Option String) (e : String),
       (fields.filter (fun f => !(VALID_THREAD_FIELDS.contains f))).isEmpty = true →
       getListUserThreads fields since until_ limit before after (fun _ => .error e) =
         buildError ("Request failed: " ++ e) (some "REQUEST_FAILED")) ∧
    (∀ (metrics : List String) (e : String) (mid : Json),
       (metrics.filter (fun m => !(VALID_MEDIA_METRICS.contains m))).isEmpty = true →
       getMediaInsights metrics (fun _ => .error e) mid =
         buildError ("Request failed: " ++ e) (some "REQUEST_FAILED")) ∧
    (∀ (cs stored slt : Option String) (e : String),
       optTruthy slt = true → credMissing cs = false →
       getLongLivedToken cs stored slt (.error e) =
         .ok (buildError ("Request failed: " ++ e) (some "REQUEST_FAILED"))) ∧
    (∀ (cs stored slt : Option String) (http : Except String (Nat × Json)),
       (∀ b : Json, http = .ok (200, b) → ∃ l, b = Json.obj l) →
       ∃ j : Json, getLongLivedToken cs stored slt http = .ok j) := by
  refine ⟨?_, ?_, ?_, ?_, ?_, ?_, ?_⟩
  · intro cid cs url c e hcode hcid hcs
    simp only [exchangeCodeForToken, hcode, hcid, hcs, Bool.or_self]
    rfl
  · intro cid cs url http hbody
    simp only [exchangeCodeForToken]
    cases hcode : extractAuthCode url with
    | none => exact ⟨_, rfl⟩
    | some c =>
      by_cases hmiss : (credMissing cid || credMissing cs) = true
      · rw [if_pos hmiss]
        exact ⟨_, rfl⟩
      · rw [if_neg hmiss]
        cases http with
        | error e => exact ⟨_, rfl⟩
        | ok sb =>
          obtain ⟨status, body⟩ := sb
          by_cases hst : status = 200
          · subst hst
            obtain ⟨l, hl⟩ := hbody body rfl
            subst hl
            exact ⟨_, rfl⟩
          · refine ⟨buildError (pyRepr body) (some "TOKEN_EXCHANGE_FAILED"), ?_⟩
            simp [hst]
  · intro metrics since until_ e h
    simp only [getThreadsUserInsights]
    rw [h]
    rfl
  · intro fields since until_ limit before after e h
    simp only [getListUserThreads]
    rw [h]
    rfl
  · intro metrics e mid h
    simp only [getMediaInsights]
    rw [h]
    rfl
  · intro cs stored slt e htok hcs
    simp only [getLongLivedToken]
    rw [if_pos htok, htok, hcs]
    rfl
  · intro cs stored slt http hbody
    simp only [getLongLivedToken]
    by_cases htok : (!optTruthy (if optTruthy slt = true then slt else stored)) = true
    · rw [if_pos htok]
      exact ⟨_, rfl⟩
    · rw [if_neg htok]
      by_cases hcs : credMissing cs = true
      · rw [if_pos hcs]
        exact ⟨_, rfl⟩
      · rw [if_neg hcs]
        cases http with
        | error e => exact ⟨_, rfl⟩
        | ok sb =>
          obtain ⟨status, body⟩ := sb
          by_cases hst : status = 200
          · subst hst
            obtain ⟨l, hl⟩ := hbody body rfl
            subst hl
            exact ⟨_, rfl⟩
          · refine ⟨buildError (pyRepr body) (some "LONG_TOKEN_EXCHANGE_FAILED"), ?_⟩
            simp [hst]

/-- C3 witness: concrete instances of the transport-failure conversion
for both token exchanges and the media fetch. -/
theorem c3_http_errors_as_values_witness :
    exchangeCodeForToken (some "cid") (some "secret") (.error "timeout")
        "https://oauth.pstmn.io/v1/browser-callback?code=abc" =
      .ok (buildError ("Request failed: " ++ "timeout") (some "REQUEST_FAILED")) ∧
    getMediaInsights ["views"] (fun _ => .error "refused") (Json.str "m1") =
      buildError ("Request failed: " ++ "refused") (some "REQUEST_FAILED") ∧
    getLongLivedToken (some "secret") none (some "tok") (.error "reset") =
      .ok (buildError ("Request failed: " ++ "reset") (some "REQUEST_FAILED")) :=
  ⟨c3_http_errors_as_values.1 (some "cid") (some "secret")
     "https://oauth.pstmn.io/v1/browser-callback?code=abc" "abc" "timeout" rfl rfl rfl,
   c3_http_errors_as_values.2.2.2.2.1 ["views"] "refused" (Json.str "m1") rfl,
   c3_http_errors_as_values.2.2.2.2.2.1 (some "secret") none (some "tok") "reset" rfl rfl⟩

/-- A successful key lookup implies dict membership. -/
theorem mget_some_hasKeyB {j : Json} {k : String} {v : Json}
    (h : j.mget k = some v) : hasKeyB j k = true := by
  cases j with
  | obj l =>
    simp only [Json.mget] at h
    rcases hf : l.find? (fun p => p.1 == k) with _ | p
    · rw [hf] at h
      exact Option.noConfusion h
    · have hp := List.find?_some hf
      have hm := List.mem_of_find?_eq_some hf
      simp only [hasKeyB, List.any_eq_true]
      exact ⟨p, hm, hp⟩
  | null => exact Option.noConfusion h
  | bool b => exact Option.noConfusion h
  | num n => exact Option.noConfusion h
  | str s => exact Option.noConfusion h
  | arr a => exact Option.noConfusion h

/-- The converter's item loop distributes over list append. -/
theorem convertData_append (sv uv : Json) (l1 l2 : List Json) (r1 r2 : List Row)
    (h1 : convertData sv uv l1 = .ok r1) (h2 : convertData sv uv l2 = .ok r2) :
    convertData sv uv (l1 ++ l2) = .ok (r1 ++ r2) := by
  induction l1 generalizing r1 with
  | nil =>
    simp only [convertData] at h1
    rw [Except.ok.injEq] at h1
    subst h1
    simpa using h2
  | cons item rest ih =>
    simp only [convertData] at h1 ⊢
    rcases hi : convertItem sv uv item with e | rows
    · rw [hi] at h1
      exact Except.noConfusion h1
    · rw [hi] at h1
      rw [exBind_ok] at h1 ⊢
      rcases hr : convertData sv uv rest with e | rs
      · rw [hr] at h1
        exact Except.noConfusion h1
      · rw [hr] at h1
        rw [exBind_ok, Except.ok.injEq] at h1
        rw [List.append_eq, ih rs hr, exBind_ok, ← h1]
        simp [List.append_assoc]

/-- `",".join` of a list of strings is the comma-join of its contents. -/
theorem joinStrs_wf (ks : List Json)
    (h : ks.all (fun k => match k with | .str _ => true | _ => false) = true) :
    joinStrs ks = .ok (commaJoin (ks.map (fun k => match k with | .str s => s | _ => ""))) := by
  induction ks with
  | nil => rfl
  | cons k rest ih =>
    rw [List.all_cons, Bool.and_eq_true] at h
    obtain ⟨hk, hrest⟩ := h
    cases k with
    | str s =>
      cases rest with
      | nil => rfl
      | cons k2 rest2 =>
        simp only [joinStrs]
        rw [ih hrest]
        cases k2 with
        | str s2 => rfl
        | null => simp at hrest
        | bool b => simp at hrest
        | num n => simp at hrest
        | arr a => simp at hrest
        | obj o => simp at hrest
    | null => exact Bool.noConfusion hk
    | bool b => exact Bool.noConfusion hk
    | num n => exact Bool.noConfusion hk
    | arr a => exact Bool.noConfusion hk
    | obj o => exact Bool.noConfusion hk

/-- `specDimValue` on a result without the field. -/
theorem specDimValue_none {r : Json} (h : r.mget "dimension_values" = none) :
    specDimValue r = Json.null := by
  unfold specDimValue
  rw [h]

/-- `specDimValue` on a result with a non-empty list. -/
theorem specDimValue_cons {r v : Json} {vs : List Json}
    (h : r.mget "dimension_values" = some (.arr (v :: vs))) :
    specDimValue r = v := by
  unfold specDimValue
  rw [h]

/-- On a well-shaped result, `dimensionValue0` succeeds with the
spec-side dimension value. -/
theorem dimensionValue0_wf (r : Json) (h : WFDemoResult r = true) :
    dimensionValue0 r = .ok (specDimValue r) := by
  cases r with
  | obj rl =>
    simp only [WFDemoResult] at h
    simp only [dimensionValue0]
    rcases hdv : (Json.obj rl).mget "dimension_values" with _ | dj
    · rw [specDimValue_none hdv]
    · rw [hdv] at h
      cases dj with
      | arr a =>
        cases a with
        | nil => exact Bool.noConfusion h
        | cons v vs => rw [specDimValue_cons hdv]; rfl
      | null => exact Bool.noConfusion h
      | bool b => exact Bool.noConfusion h
      | num n => exact Bool.noConfusion h
      | str s => exact Bool.noConfusion h
      | obj o => exact Bool.noConfusion h
  | null => exact Bool.noConfusion h
  | bool b => exact Bool.noConfusion h
  | num n => exact Bool.noConfusion h
  | str s => exact Bool.noConfusion h
  | arr a => exact Bool.noConfusion h

/-- A well-shaped result is a dict. -/
theorem WFDemoResult_obj (r : Json) (h : WFDemoResult r = true) :
    ∃ rl, r = Json.obj rl := by
  cases r with
  | obj rl => exact ⟨rl, rfl⟩
  | null => exact Bool.noConfusion h
  | bool b => exact Bool.noConfusion h
  | num n => exact Bool.noConfusion h
  | str s => exact Bool.noConfusion h
  | arr a => exact Bool.noConfusion h

/-- The demographics inner loop, on well-shaped results, emits exactly
one fully-described row per result. -/
theorem demoResultRows_wf (sv uv tv item : Json) (dk : String) (rs : List Json)
    (h : rs.all WFDemoResult = true) :
    demoResultRows (baseRowOf sv uv tv item) dk rs =
      .ok (rs.map (fun r =>
        baseRowOf sv uv tv item ++
        [("dimension_key", Json.str dk), ("dimension_value", specDimValue r),
         ("value", r.mgetD "value")])) := by
  induction rs with
  | nil => rfl
  | cons r rest ih =>
    rw [List.all_cons, Bool.and_eq_true] at h
    obtain ⟨hr, hrest⟩ := h
    obtain ⟨rl, hrl⟩ := WFDemoResult_obj r hr
    subst hrl
    simp only [demoResultRows]
    rw [dimensionValue0_wf _ hr, exBind_ok, ih hrest, exBind_ok]
    rfl

/-- The demographics outer loop, on well-shaped breakdowns, emits the
per-(breakdown, result) rows in order. -/
theorem demoRows_wf (sv uv tv item : Json) (bs : List Json)
    (h : bs.all WFDemoBreakdown = true) :
    demoRows (baseRowOf sv uv tv item) bs =
      .ok (bs.flatMap (fun b =>
        (resultsOf b).map (fun r =>
          baseRowOf sv uv tv item ++
          [("dimension_key", Json.str (commaJoin (dimKeysOf b))),
           ("dimension_value", specDimValue r),
           ("value", r.mgetD "value")]))) := by
  induction bs with
  | nil => rfl
  | cons b rest ih =>
    rw [List.all_cons, Bool.and_eq_true] at h
    obtain ⟨hb, hrest⟩ := h
    cases b with
    | obj bl =>
      simp only [WFDemoBreakdown, Bool.and_eq_true] at hb
      obtain ⟨hbk, hbr⟩ := hb
      simp only [demoRows]
      have hdkeq : ∃ dkl,
          asIterList (((Json.obj bl).mget "dimension_keys").getD (Json.arr [])) = .ok dkl ∧
          dkl.all (fun k => match k with | .str _ => true | _ => false) = true ∧
          dimKeysOf (Json.obj bl) =
            dkl.map (fun k => match k with | .str s => s | _ => "") := by
        rcases hdk : (Json.obj bl).mget "dimension_keys" with _ | kj
        · exact ⟨[], rfl, rfl, by simp [dimKeysOf, hdk]⟩
        · rw [hdk] at hbk
          cases kj with
          | arr ks => exact ⟨ks, rfl, hbk, by simp [dimKeysOf, hdk]⟩
          | null => exact Bool.noConfusion hbk
          | bool x => exact Bool.noConfusion hbk
          | num x => exact Bool.noConfusion hbk
          | str x => exact Bool.noConfusion hbk
          | obj x => exact Bool.noConfusion hbk
      obtain ⟨dkl, hdl1, hdl2, hdl3⟩ := hdkeq
      have hrseq : ∃ rs,
          asIterList (((Json.obj bl).mget "results").getD (Json.arr [])) = .ok rs ∧
          rs.all WFDemoResult = true ∧
          resultsOf (Json.obj bl) = rs := by
        rcases hrs : (Json.obj bl).mget "results" with _ | rj
        · exact ⟨[], rfl, rfl, by simp [resultsOf, hrs]⟩
        · rw [hrs] at hbr
          cases rj with
          | arr rs => exact ⟨rs, rfl, hbr, by simp [resultsOf, hrs]⟩
          | null => exact Bool.noConfusion hbr
          | bool x => exact Bool.noConfusion hbr
          | num x => exact Bool.noConfusion hbr
          | str x => exact Bool.noConfusion hbr
          | obj x => exact Bool.noConfusion hbr
      obtain ⟨rs, hrs1, hrs2, hrs3⟩ := hrseq
      rw [hdl1, exBind_ok, joinStrs_wf dkl hdl2, exBind_ok, hrs1, exBind_ok, ← hdl3,
          demoResultRows_wf sv uv tv item (commaJoin (dimKeysOf (Json.obj bl))) rs hrs2,
          exBind_ok, ih hrest, exBind_ok, List.flatMap_cons, hrs3]
    | null => exact Bool.noConfusion hb
    | bool x => exact Bool.noConfusion hb
    | num x => exact Bool.noConfusion hb
    | str x => exact Bool.noConfusion hb
    | arr x => exact Bool.noConfusion hb

/-- On a well-formed demographics item, the converter's loop body takes
the demographics branch and produces exactly the spec-side rows. -/
theorem convertItem_demo_wf (sv uv : Json) (item : Json)
    (h : WFDemoItem item = true) :
    convertItem sv uv item =
      .ok (specDemoRows sv uv ((item.mgetD "total_value").mgetD "value") item) := by
  unfold WFDemoItem at h
  rw [Bool.and_eq_true] at h
  obtain ⟨hname, htv⟩ := h
  cases item with
  | obj il =>
    rcases hm : (Json.obj il).mget "total_value" with _ | tv
    · rw [hm] at htv
      exact Bool.noConfusion htv
    · rw [hm] at htv
      cases tv with
      | obj tvl =>
        have htv2 : (match (Json.obj tvl).mget "breakdowns" with
            | some (.arr bs) => bs.all WFDemoBreakdown
            | _ => false) = true := htv
        clear htv
        rename' htv2 => htv
        rcases hb : (Json.obj tvl).mget "breakdowns" with _ | bj
        · rw [hb] at htv
          exact Bool.noConfusion htv
        · rw [hb] at htv
          cases bj with
          | arr bs =>
            have hball : bs.all WFDemoBreakdown = true := htv
            have hkey : hasKeyB (Json.obj il) "total_value" = true := mget_some_hasKeyB hm
            have hcond : (nameIs (Json.obj il) "follower_demographics" &&
                hasKeyB (Json.obj il) "total_value") = true := by rw [hname, hkey]; rfl
            have htvf : totalValueField (Json.obj il) = .ok ((Json.obj tvl).mgetD "value") := by
              unfold totalValueField
              rw [hm]
            have hmd : (Json.obj il).mgetD "total_value" = Json.obj tvl := by
              unfold Json.mgetD
              rw [hm]
              rfl
            simp only [convertItem]
            rw [htvf, exBind_ok, if_pos hcond, hmd, hb, Option.getD_some]
            rw [show asIterList (Json.arr bs) = .ok bs from rfl, exBind_ok]
            rw [demoRows_wf sv uv ((Json.obj tvl).mgetD "value") (Json.obj il) bs hball]
            have hbo : breakdownsOf (Json.obj il) = bs := by
              unfold breakdownsOf
              rw [hmd, hb]
            simp only [specDemoRows, hbo, hmd]
          | null => exact Bool.noConfusion htv
          | bool x => exact Bool.noConfusion htv
          | num x => exact Bool.noConfusion htv
          | str x => exact Bool.noConfusion htv
          | obj x => exact Bool.noConfusion htv
      | null => exact Bool.noConfusion htv
      | bool x => exact Bool.noConfusion htv
      | num x => exact Bool.noConfusion htv
      | str x => exact Bool.noConfusion htv
      | arr x => exact Bool.noConfusion htv
  | null => exact Bool.noConfusion hname
  | bool b => exact Bool.noConfusion hname
  | num n => exact Bool.noConfusion hname
  | str s => exact Bool.noConfusion hname
  | arr a => exact Bool.noConfusion hname

/-- C2 counterexample: the claim says `dimension_value` is null when the
result's `dimension_values` array is empty, but on such an item the
converter raises `IndexError` (the code's default `[None]` only covers
the *absent* field: `result.get("dimension_values", [None])[0]`
subscripts the present empty list). -/
theorem c2_empty_dimension_values_raises :
    convertAccountInsightsToDataframe (Json.obj [("data", Json.arr [Json.obj
      [("name", Json.str "follower_demographics"),
       ("total_value", Json.obj [("breakdowns", Json.arr [Json.obj
          [("dimension_keys", Json.arr [Json.str "age"]),
           ("results", Json.arr [Json.obj [("dimension_values", Json.arr []),
                                           ("value", Json.num 7)]])]])])]])]) =
      .error "IndexError" := rfl

/-- C2 (amended): for every insight item named `follower_demographics`
with a `total_value.breakdowns` list — well-shaped, and with every
result's `dimension_values` either absent or non-empty —
`convert_account_insights_to_dataframe` emits exactly one row per
(breakdown, result) pair, whose `dimension_key` is the comma-join of the
breakdown's `dimension_keys`, whose `dimension_value` is the first
element of the result's `dimension_values` (null when the field is
absent; a present-but-empty list instead raises `IndexError`), and whose
`value` is the result's `value`. -/
theorem c2_demographics_one_row_per_pair (items1 items2 : List Json)
    (r1 r2 : List Row) (item : Json)
    (hwf : WFDemoItem item = true)
    (h1 : convertData Json.null Json.null items1 = .ok r1)
    (h2 : convertData Json.null Json.null items2 = .ok r2) :
    convertAccountInsightsToDataframe
        (Json.obj [("data", Json.arr (items1 ++ item :: items2))]) =
      .ok (r1 ++ specDemoRows Json.null Json.null
                   ((item.mgetD "total_value").mgetD "value") item ++ r2) := by
  have hitem : convertData Json.null Json.null (item :: items2) =
      .ok (specDemoRows Json.null Json.null
             ((item.mgetD "total_value").mgetD "value") item ++ r2) := by
    simp only [convertData]
    rw [convertItem_demo_wf Json.null Json.null item hwf, exBind_ok, h2, exBind_ok]
  have hall := convertData_append Json.null Json.null items1 (item :: items2) r1 _ h1 hitem
  simp only [convertAccountInsightsToDataframe]
  rw [if_neg (by simp [hasKeyB])]
  rw [show parseSinceUntil (Json.obj [("data", Json.arr (items1 ++ item :: items2))]) =
        .ok (Json.null, Json.null) from rfl, exBind_ok]
  rw [show (Json.obj [("data", Json.arr (items1 ++ item :: items2))]).mgetD "data" =
        Json.arr (items1 ++ item :: items2) from rfl]
  rw [show asIterList (Json.arr (items1 ++ item :: items2)) =
        .ok (items1 ++ item :: items2) from rfl, exBind_ok]
  rw [hall, List.append_assoc]

/-- C2 witness: a `follower_demographics` item with one breakdown and two
results yields exactly two rows, each carrying its own
dimension_key/dimension_value/value. -/
theorem c2_demographics_one_row_per_pair_witness :
    convertAccountInsightsToDataframe (Json.obj [("data", Json.arr [Json.obj
      [("name", Json.str "follower_demographics"),
       ("total_value", Json.obj [("breakdowns", Json.arr [Json.obj
          [("dimension_keys", Json.arr [Json.str "age"]),
           ("results", Json.arr
             [Json.obj [("dimension_values", Json.arr [Json.str "25-34"]),
                        ("value", Json.num 100)],
              Json.obj [("dimension_values", Json.arr [Json.str "35-44"]),
                        ("value", Json.num 50)]])]])])]])]) =
      .ok [[("name", Json.str "follower_demographics"), ("title", Json.null),
            ("description", Json.null), ("since", Json.null), ("until", Json.null),
            ("total_value", Json.null), ("id", Json.null),
            ("dimension_key", Json.str "age"),
            ("dimension_value", Json.str "25-34"), ("value", Json.num 100)],
           [("name", Json.str "follower_demographics"), ("title", Json.null),
            ("description", Json.null), ("since", Json.null), ("until", Json.null),
            ("total_value", Json.null), ("id", Json.null),
            ("dimension_key", Json.str "age"),
            ("dimension_value", Json.str "35-44"), ("value", Json.num 50)]] :=
  c2_demographics_one_row_per_pair [] []
    [] [] (Json.obj
      [("name", Json.str "follower_demographics"),
       ("total_value", Json.obj [("breakdowns", Json.arr [Json.obj
          [("dimension_keys", Json.arr [Json.str "age"]),
           ("results", Json.arr
             [Json.obj [("dimension_values", Json.arr [Json.str "25-34"]),
                        ("value", Json.num 100)],
              Json.obj [("dimension_values", Json.arr [Json.str "35-44"]),
                        ("value", Json.num 50)]])]])])]) rfl rfl rfl

/-- On well-shaped `values` entries, the aggregation loop computes the
spec-side sum (missing `value` fields contribute 0). -/
theorem sumValues_wf (vs : List Json)
    (h : vs.all (fun v =>
      match v with
      | .obj _ =>
        (match v.mget "value" with
         | none => true
         | some (.num _) => true
         | some _ => false)
      | _ => false) = true) :
    sumValues vs = .ok (specViewsTotal vs) := by
  induction vs with
  | nil => rfl
  | cons v rest ih =>
    rw [List.all_cons, Bool.and_eq_true] at h
    obtain ⟨hv, hrest⟩ := h
    cases v with
    | obj vl =>
      simp only [sumValues, specViewsTotal]
      rw [ih hrest]
      rcases hval : (Json.obj vl).mget "value" with _ | jv
      · rfl
      · rw [hval] at hv
        cases jv with
        | num n => rfl
        | null => exact Bool.noConfusion hv
        | bool b => exact Bool.noConfusion hv
        | str s => exact Bool.noConfusion hv
        | arr a => exact Bool.noConfusion hv
        | obj o => exact Bool.noConfusion hv
    | null => exact Bool.noConfusion hv
    | bool b => exact Bool.noConfusion hv
    | num n => exact Bool.noConfusion hv
    | str s => exact Bool.noConfusion hv
    | arr a => exact Bool.noConfusion hv

/-- On a well-formed `views` item, the converter's loop body takes the
aggregation branch and produces exactly the single spec-side row. -/
theorem convertItem_views_wf (sv uv : Json) (item : Json)
    (h : WFViewsItem item = true) :
    convertItem sv uv item = .ok [specViewsRow sv uv item] := by
  cases item with
  | obj il =>
    unfold WFViewsItem at h
    rw [Bool.and_eq_true, Bool.and_eq_true] at h
    obtain ⟨⟨hname, htvs⟩, hvals⟩ := h
    have hnv : (Json.obj il).mget "name" = some (Json.str "views") := by
      unfold nameIs at hname
      rcases hn : (Json.obj il).mget "name" with _ | nj
      · rw [hn] at hname
        exact Bool.noConfusion hname
      · cases nj with
        | str s =>
          rw [hn] at hname
          rw [eq_of_beq hname]
        | null => rw [hn] at hname; exact Bool.noConfusion hname
        | bool b => rw [hn] at hname; exact Bool.noConfusion hname
        | num n => rw [hn] at hname; exact Bool.noConfusion hname
        | arr a => rw [hn] at hname; exact Bool.noConfusion hname
        | obj o => rw [hn] at hname; exact Bool.noConfusion hname
    have hdemo : nameIs (Json.obj il) "follower_demographics" = false := by
      simp [nameIs, hnv]
    have hcond1 : ¬((nameIs (Json.obj il) "follower_demographics" &&
        hasKeyB (Json.obj il) "total_value") = true) := by
      rw [hdemo]
      exact fun hh => Bool.noConfusion hh
    have htvf : ∃ t, totalValueField (Json.obj il) = .ok t := by
      rcases hm : (Json.obj il).mget "total_value" with _ | tv
      · exact ⟨Json.null, by unfold totalValueField; rw [hm]⟩
      · rw [hm] at htvs
        cases tv with
        | obj tvl => exact ⟨(Json.obj tvl).mgetD "value", by unfold totalValueField; rw [hm]⟩
        | null => exact Bool.noConfusion htvs
        | bool b => exact Bool.noConfusion htvs
        | num n => exact Bool.noConfusion htvs
        | str s => exact Bool.noConfusion htvs
        | arr a => exact Bool.noConfusion htvs
    obtain ⟨tvval, htvf⟩ := htvf
    have hvs : ∃ vs, (Json.obj il).mget "values" = some (Json.arr vs) ∧
        vs.all (fun v =>
          match v with
          | .obj _ =>
            (match v.mget "value" with
             | none => true
             | some (.num _) => true
             | some _ => false)
          | _ => false) = true := by
      rcases hv : (Json.obj il).mget "values" with _ | vj
      · rw [hv] at hvals
        exact Bool.noConfusion hvals
      · rw [hv] at hvals
        cases vj with
        | arr vs => exact ⟨vs, rfl, hvals⟩
        | null => exact Bool.noConfusion hvals
        | bool b => exact Bool.noConfusion hvals
        | num n => exact Bool.noConfusion hvals
        | str s => exact Bool.noConfusion hvals
        | obj o => exact Bool.noConfusion hvals
    obtain ⟨vs, hv, hventries⟩ := hvs
    have hkeyv : hasKeyB (Json.obj il) "values" = true := mget_some_hasKeyB hv
    have hcond2 : (nameIs (Json.obj il) "views" && hasKeyB (Json.obj il) "values") = true := by
      rw [hname, hkeyv]
      rfl
    have hmdv : (Json.obj il).mgetD "values" = Json.arr vs := by
      unfold Json.mgetD
      rw [hv]
      rfl
    have hvo : valuesOf (Json.obj il) = vs := by
      unfold valuesOf
      rw [hv]
    simp only [convertItem]
    rw [htvf, exBind_ok, if_neg hcond1, if_pos hcond2, hmdv,
        show asIterList (Json.arr vs) = .ok vs from rfl, exBind_ok,
        sumValues_wf vs hventries, exBind_ok]
    simp only [specViewsRow, hvo]
    rfl
  | null => exact Bool.noConfusion h
  | bool b => exact Bool.noConfusion h
  | num n => exact Bool.noConfusion h
  | str s => exact Bool.noConfusion h
  | arr a => exact Bool.noConfusion h

/-- C5: for every insight item named `views` with a well-shaped `values`
list, `convert_account_insights_to_dataframe` emits exactly one row,
whose `total_value` is the sum of the entries' `value` fields (a missing
`value` contributes 0) and whose `value` and `end_time` are null. -/
theorem c5_views_single_aggregated_row (items1 items2 : List Json)
    (r1 r2 : List Row) (item : Json)
    (hwf : WFViewsItem item = true)
    (h1 : convertData Json.null Json.null items1 = .ok r1)
    (h2 : convertData Json.null Json.null items2 = .ok r2) :
    convertAccountInsightsToDataframe
        (Json.obj [("data", Json.arr (items1 ++ item :: items2))]) =
      .ok (r1 ++ [specViewsRow Json.null Json.null item] ++ r2) := by
  have hitem : convertData Json.null Json.null (item :: items2) =
      .ok (specViewsRow Json.null Json.null item :: r2) := by
    simp only [convertData]
    rw [convertItem_views_wf Json.null Json.null item hwf, exBind_ok, h2, exBind_ok]
    rfl
  have hall := convertData_append Json.null Json.null items1 (item :: items2) r1 _ h1 hitem
  simp only [convertAccountInsightsToDataframe]
  rw [if_neg (by simp [hasKeyB])]
  rw [show parseSinceUntil (Json.obj [("data", Json.arr (items1 ++ item :: items2))]) =
        .ok (Json.null, Json.null) from rfl, exBind_ok]
  rw [show (Json.obj [("data", Json.arr (items1 ++ item :: items2))]).mgetD "data" =
        Json.arr (items1 ++ item :: items2) from rfl]
  rw [show asIterList (Json.arr (items1 ++ item :: items2)) =
        .ok (items1 ++ item :: items2) from rfl, exBind_ok]
  rw [hall, List.append_assoc]
  rfl

/-- C5 witness: values `[{value:3},{value:5}]` yield exactly one row
whose total_value is 8 and whose value / end_time are null. -/
theorem c5_views_single_aggregated_row_witness :
    convertAccountInsightsToDataframe (Json.obj [("data", Json.arr [Json.obj
      [("name", Json.str "views"),
       ("values", Json.arr [Json.obj [("value", Json.num 3)],
                            Json.obj [("value", Json.num 5)]])]])]) =
      .ok [[("name", Json.str "views"), ("title", Json.null),
            ("description", Json.null), ("since", Json.null), ("until", Json.null),
            ("total_value", Json.num 8), ("id", Json.null),
            ("value", Json.null), ("end_time", Json.null)]] :=
  c5_views_single_aggregated_row [] [] [] []
    (Json.obj [("name", Json.str "views"),
       ("values", Json.arr [Json.obj [("value", Json.num 3)],
                            Json.obj [("value", Json.num 5)]])]) rfl rfl rfl

/-- A lookup that misses implies key absence. -/
theorem mget_none_hasKeyB {j : Json} {k : String}
    (h : j.mget k = none) : hasKeyB j k = false := by
  cases j with
  | obj l =>
    simp only [Json.mget] at h
    rcases hf : l.find? (fun p => p.1 == k) with _ | p
    · rw [Bool.eq_false_iff]
      intro hcontra
      simp only [hasKeyB, List.any_eq_true] at hcontra
      obtain ⟨q, hqmem, hq⟩ := hcontra
      exact absurd hq (by simpa using List.find?_eq_none.mp hf q hqmem)
    · rw [hf] at h
      exact Option.noConfusion h
  | null => rfl
  | bool b => rfl
  | num n => rfl
  | str s => rfl
  | arr a => rfl

/-- Inserting a fresh key appends it. -/
theorem setKey_fresh (r : Row) (k : String) (v : Json)
    (h : rowHasKey r k = false) : setKey r k v = r ++ [(k, v)] := by
  simp [setKey, h]

/-- Key membership distributes over row concatenation. -/
theorem rowHasKey_append (r1 r2 : Row) (k : String) :
    rowHasKey (r1 ++ r2) k = (rowHasKey r1 k || rowHasKey r2 k) :=
  List.any_append

/-- The per-media row loop over well-shaped, distinctly-named insights
appends one `(name, first value)` column per named insight with a
non-empty `values` list. -/
theorem insightsRowLoop_wf (insights : List Json) :
    ∀ acc : Row,
      insights.all WFInsight = true →
      (namesOf insights).Nodup →
      (∀ n ∈ namesOf insights, rowHasKey acc n = false) →
      insightsRowLoop acc insights = .ok (acc ++ entriesSpec insights) := by
  induction insights with
  | nil =>
    intro acc _ _ _
    simp [insightsRowLoop, entriesSpec]
  | cons i rest ih =>
    intro acc hall hnodup hfresh
    rw [List.all_cons, Bool.and_eq_true] at hall
    obtain ⟨hi, hrest⟩ := hall
    cases i with
    | obj iil =>
      simp only [WFInsight, Bool.and_eq_true] at hi
      obtain ⟨hin, hiv⟩ := hi
      have hnv : ∃ n, (Json.obj iil).mget "name" = some (Json.str n) := by
        rcases hn : (Json.obj iil).mget "name" with _ | nj
        · rw [hn] at hin
          exact Bool.noConfusion hin
        · cases nj with
          | str s => exact ⟨s, rfl⟩
          | null => rw [hn] at hin; exact Bool.noConfusion hin
          | bool b => rw [hn] at hin; exact Bool.noConfusion hin
          | num n => rw [hn] at hin; exact Bool.noConfusion hin
          | arr a => rw [hn] at hin; exact Bool.noConfusion hin
          | obj o => rw [hn] at hin; exact Bool.noConfusion hin
      obtain ⟨n, hnv⟩ := hnv
      have hnames : namesOf (Json.obj iil :: rest) = n :: namesOf rest := by
        simp [namesOf, hnv]
      rw [hnames] at hnodup hfresh
      rw [List.nodup_cons] at hnodup
      obtain ⟨hnmem, hnodup⟩ := hnodup
      have hfresh_head : rowHasKey acc n = false := hfresh n (List.mem_cons_self n _)
      have hfresh_rest : ∀ m ∈ namesOf rest, rowHasKey acc m = false :=
        fun m hm => hfresh m (List.mem_cons_of_mem n hm)
      rcases hv : (Json.obj iil).mget "values" with _ | vj
      · -- no `values` key: no column is added for this insight
        have hentry : insightEntry acc (Json.obj iil) = .ok acc := by
          simp only [insightEntry]
          rw [hnv]
          dsimp only
          rw [if_neg (by simp [mget_none_hasKeyB hv])]
        have hspec : entriesSpec (Json.obj iil :: rest) = entriesSpec rest := by
          simp [entriesSpec, hnv, hv]
        simp only [insightsRowLoop]
        rw [hentry, exBind_ok, ih acc hrest hnodup hfresh_rest, hspec]
      · rw [hv] at hiv
        have hkeyv : hasKeyB (Json.obj iil) "values" = true := mget_some_hasKeyB hv
        have hmdv : (Json.obj iil).mgetD "values" = vj := by
          unfold Json.mgetD
          rw [hv]
          rfl
        cases vj with
        | arr vs =>
          cases vs with
          | nil =>
            -- empty `values` list: length test fails, no column is added
            have hentry : insightEntry acc (Json.obj iil) = .ok acc := by
              simp only [insightEntry]
              rw [hnv]
              dsimp only
              rw [hkeyv, hmdv, if_pos rfl]
              rfl
            have hspec : entriesSpec (Json.obj iil :: rest) = entriesSpec rest := by
              simp [entriesSpec, hnv, hv]
            simp only [insightsRowLoop]
            rw [hentry, exBind_ok, ih acc hrest hnodup hfresh_rest, hspec]
          | cons v vs2 =>
            cases v with
            | obj vl =>
              have hentry : insightEntry acc (Json.obj iil) =
                  .ok (setKey acc n ((Json.obj vl).mgetD "value")) := by
                simp only [insightEntry]
                rw [hnv]
                dsimp only
                rw [hkeyv, hmdv, if_pos rfl]
                rw [show jLen (Json.arr (Json.obj vl :: vs2)) = .ok (vs2.length + 1) from rfl,
                    exBind_ok, if_pos (Nat.succ_pos vs2.length)]
                rfl
              have hspec : entriesSpec (Json.obj iil :: rest) =
                  (n, (Json.obj vl).mgetD "value") :: entriesSpec rest := by
                simp [entriesSpec, hnv, hv]
              have hfresh2 : ∀ m ∈ namesOf rest,
                  rowHasKey (acc ++ [(n, (Json.obj vl).mgetD "value")]) m = false := by
                intro m hm
                rw [rowHasKey_append, hfresh_rest m hm]
                have hne : (n == m) = false := by
                  rw [beq_eq_false_iff_ne]
                  intro he
                  exact hnmem (he ▸ hm)
                simp [rowHasKey, hne]
              simp only [insightsRowLoop]
              rw [hentry, exBind_ok, setKey_fresh acc n _ hfresh_head,
                  ih (acc ++ [(n, (Json.obj vl).mgetD "value")]) hrest hnodup hfresh2, hspec]
              simp [List.append_assoc]
            | null => exact Bool.noConfusion hiv
            | bool b => exact Bool.noConfusion hiv
            | num nn => exact Bool.noConfusion hiv
            | str s => exact Bool.noConfusion hiv
            | arr a => exact Bool.noConfusion hiv
        | null => exact Bool.noConfusion hiv
        | bool b => exact Bool.noConfusion hiv
        | num nn => exact Bool.noConfusion hiv
        | str s => exact Bool.noConfusion hiv
        | obj o => exact Bool.noConfusion hiv
    | null => exact Bool.noConfusion hi
    | bool b => exact Bool.noConfusion hi
    | num nn => exact Bool.noConfusion hi
    | str s => exact Bool.noConfusion hi
    | arr a => exact Bool.noConfusion hi

/-- One well-shaped `insights_list` entry yields exactly one row, keyed
by its `media_id`, with one column per named insight that has a
non-empty `values` list. -/
theorem insightsItemRow_wf (il : List (String × Json)) (mid ins : Json)
    (insights : List Json)
    (hmid : (Json.obj il).mget "media_id" = some mid)
    (hins : (Json.obj il).mget "insights" = some ins)
    (hdata : ins.mget "data" = some (Json.arr insights))
    (hall : insights.all WFInsight = true)
    (hnodup : (namesOf insights).Nodup)
    (hmedia : "media_id" ∉ namesOf insights) :
    insightsItemRow (Json.obj il) =
      .ok (some (("media_id", mid) :: entriesSpec insights)) := by
  simp only [insightsItemRow]
  rw [hmid]
  dsimp only
  rw [hins]
  dsimp only
  rw [if_pos (mget_some_hasKeyB hdata)]
  have hmd : ins.mgetD "data" = Json.arr insights := by
    unfold Json.mgetD
    rw [hdata]
    rfl
  rw [hmd, show asIterList (Json.arr insights) = .ok insights from rfl, exBind_ok]
  have hfresh : ∀ n ∈ namesOf insights, rowHasKey [("media_id", mid)] n = false := by
    intro n hn
    have hne : ("media_id" == n) = false := by
      rw [beq_eq_false_iff_ne]
      intro he
      exact hmedia (he ▸ hn)
    simp [rowHasKey, hne]
  rw [insightsRowLoop_wf insights [("media_id", mid)] hall hnodup hfresh, exBind_ok]
  rfl

/-- The insights flattener distributes over list append. -/
theorem insightsToDataframe_append (l1 l2 : List Json) (r1 r2 : List Row)
    (h1 : insightsToDataframe l1 = .ok r1)
    (h2 : insightsToDataframe l2 = .ok r2) :
    insightsToDataframe (l1 ++ l2) = .ok (r1 ++ r2) := by
  induction l1 generalizing r1 with
  | nil =>
    simp only [insightsToDataframe] at h1
    rw [Except.ok.injEq] at h1
    subst h1
    simpa using h2
  | cons item rest ih =>
    simp only [insightsToDataframe] at h1 ⊢
    rcases hi : insightsItemRow item with e | o
    · rw [hi] at h1
      exact Except.noConfusion h1
    · rw [hi] at h1
      rw [exBind_ok] at h1 ⊢
      rcases hr : insightsToDataframe rest with e | rs
      · rw [hr] at h1
        exact Except.noConfusion h1
      · rw [hr] at h1
        rw [exBind_ok, Except.ok.injEq] at h1
        rw [List.append_eq, ih rs hr, exBind_ok, ← h1]
        cases o with
        | none => rfl
        | some r => rfl

/-- C6 counterexample: two insights sharing the name `views` (first
values 1 and 2) — Python's `row[metric_name] = ...` makes the later
insight overwrite the earlier one's column, so the `views` column holds
2, not the first insight's first value 1; the frozen claim fails for the
earlier insight. -/
theorem c6_duplicate_name_overwrites_counterexample :
    insightsToDataframe [Json.obj [("media_id", Json.str "m1"),
      ("insights", Json.obj [("data", Json.arr
        [Json.obj [("name", Json.str "views"),
                   ("values", Json.arr [Json.obj [("value", Json.num 1)]])],
         Json.obj [("name", Json.str "views"),
                   ("values", Json.arr [Json.obj [("value", Json.num 2)]])]])])]] =
      .ok [[("media_id", Json.str "m1"), ("views", Json.num 2)]] ∧
    rowGet [("media_id", Json.str "m1"), ("views", Json.num 2)] "views" ≠
      some (Json.num 1) :=
  ⟨rfl, fun h => by
    rw [show rowGet [("media_id", Json.str "m1"), ("views", Json.num 2)] "views" =
          some (Json.num 2) from rfl] at h
    injection h with h2
    injection h2 with h3
    exact absurd h3 (by decide)⟩

/-- C6 (amended): for every input item whose insights payload has a
`data` list of well-shaped insights bearing distinct string names (none
equal to `media_id`), `insights_to_dataframe` builds exactly one row for
that item, keyed by its `media_id`, and each named insight with a
non-empty `values` list contributes the column
`(name, first value's value)` — every entry past index 0 is discarded,
as `entriesSpec` only reads the head of `values`.  (With a duplicated
metric name the later insight overwrites the earlier one's column, so
distinctness is required; see the counterexample.) -/
theorem c6_insights_first_value_distinct_names (items1 items2 : List Json)
    (r1 r2 : List Row) (il : List (String × Json)) (mid ins : Json)
    (insights : List Json)
    (hmid : (Json.obj il).mget "media_id" = some mid)
    (hins : (Json.obj il).mget "insights" = some ins)
    (hdata : ins.mget "data" = some (Json.arr insights))
    (hall : insights.all WFInsight = true)
    (hnodup : (namesOf insights).Nodup)
    (hmedia : "media_id" ∉ namesOf insights)
    (h1 : insightsToDataframe items1 = .ok r1)
    (h2 : insightsToDataframe items2 = .ok r2) :
    insightsToDataframe (items1 ++ Json.obj il :: items2) =
      .ok (r1 ++ (("media_id", mid) :: entriesSpec insights) :: r2) := by
  have hitem : insightsToDataframe (Json.obj il :: items2) =
      .ok ((("media_id", mid) :: entriesSpec insights) :: r2) := by
    simp only [insightsToDataframe]
    rw [insightsItemRow_wf il mid ins insights hmid hins hdata hall hnodup hmedia,
        exBind_ok, h2, exBind_ok]
  exact insightsToDataframe_append items1 (Json.obj il :: items2) r1 _ h1 hitem

/-- C6 witness: amid a sibling item that carries no `data` key (and thus
no row), a two-point time series keeps only the first value (10),
discarding 99. -/
theorem c6_insights_first_value_distinct_names_witness :
    insightsToDataframe
      [Json.obj [("media_id", Json.str "m0"), ("insights", Json.obj [])],
       Json.obj [("media_id", Json.str "m1"),
        ("insights", Json.obj [("data", Json.arr [Json.obj
          [("name", Json.str "views"),
           ("values", Json.arr [Json.obj [("value", Json.num 10)],
                                Json.obj [("value", Json.num 99)]])]])])]] =
      .ok [[("media_id", Json.str "m1"), ("views", Json.num 10)]] :=
  c6_insights_first_value_distinct_names
    [Json.obj [("media_id", Json.str "m0"), ("insights", Json.obj [])]] []
    [] []
    [("media_id", Json.str "m1"),
     ("insights", Json.obj [("data", Json.arr [Json.obj
        [("name", Json.str "views"),
         ("values", Json.arr [Json.obj [("value", Json.num 10)],
                              Json.obj [("value", Json.num 99)]])]])])]
    (Json.str "m1")
    (Json.obj [("data", Json.arr [Json.obj
        [("name", Json.str "views"),
         ("values", Json.arr [Json.obj [("value", Json.num 10)],
                              Json.obj [("value", Json.num 99)]])]])])
    [Json.obj [("name", Json.str "views"),
               ("values", Json.arr [Json.obj [("value", Json.num 10)],
                                    Json.obj [("value", Json.num 99)]])]]
    rfl rfl rfl rfl (by decide) (by decide) rfl rfl

/-- Filtering the `media_id` column out of a null-padded column block
filters the column list. -/
theorem filter_nullCols (cols : List String) :
    ((cols.map (fun c => (c, Json.null))).filter
        (fun p : String × Json => p.1 != "media_id")) =
      (cols.filter (fun c => c != "media_id")).map (fun c => (c, Json.null)) := by
  induction cols with
  | nil => rfl
  | cons c cs ih =>
    simp only [List.map_cons, List.filter_cons]
    by_cases h : (c != "media_id") = true
    · simp [h, ih]
    · rw [Bool.not_eq_true] at h
      simp [h, ih]

/-- C7: the merge stage of `fetch_and_merge_threads_with_insights` is a
left-outer join on the thread identifier: every thread row of the left
table survives into the combined table (extended by some insight
suffix), and a thread row with no matching insight row survives with all
insight columns null (the `media_id` join key being dropped). -/
theorem c7_left_join_preserves_threads (left right : List Row) (lr : Row)
    (hmem : lr ∈ left)
    (hnomid : lr.all (fun p => p.1 != "media_id") = true) :
    (matchRows lr right = [] →
       (lr ++ ((dfColumns right).filter (fun c => c != "media_id")).map
          (fun c => (c, Json.null))) ∈ mergeThreadsInsights left right) ∧
    (∃ suffix, (lr ++ suffix) ∈ mergeThreadsInsights left right) := by
  have hfl : lr.filter (fun p => p.1 != "media_id") = lr :=
    List.filter_eq_self.mpr (List.all_eq_true.mp hnomid)
  have hA : matchRows lr right = [] →
      (lr ++ ((dfColumns right).filter (fun c => c != "media_id")).map
         (fun c => (c, Json.null))) ∈ mergeThreadsInsights left right := by
    intro hnone
    simp only [mergeThreadsInsights, dropMediaIdCol]
    refine List.mem_map.mpr
      ⟨lr ++ (dfColumns right).map (fun c => (c, Json.null)), ?_, ?_⟩
    · simp only [mergeLeft]
      refine List.mem_flatMap.mpr ⟨lr, hmem, ?_⟩
      rw [hnone]
      exact List.mem_singleton.mpr rfl
    · rw [List.filter_append, hfl, filter_nullCols]
  refine ⟨hA, ?_⟩
  rcases hm : matchRows lr right with _ | ⟨rr, ms⟩
  · exact ⟨_, hA hm⟩
  · refine ⟨(completeRow (dfColumns right) rr).filter
      (fun p : String × Json => p.1 != "media_id"), ?_⟩
    simp only [mergeThreadsInsights, dropMediaIdCol]
    refine List.mem_map.mpr ⟨lr ++ completeRow (dfColumns right) rr, ?_, ?_⟩
    · simp only [mergeLeft]
      refine List.mem_flatMap.mpr ⟨lr, hmem, ?_⟩
      rw [hm]
      exact List.mem_map.mpr ⟨rr, List.mem_cons_self rr ms, rfl⟩
    · rw [List.filter_append, hfl]

/-- C7 witness: a thread with no matching insight row survives the merge
with its insight column null. -/
theorem c7_left_join_preserves_threads_witness :
    ([("id", Json.str "t1"), ("text", Json.str "hi"), ("views", Json.null)] : Row) ∈
      mergeThreadsInsights
        [[("id", Json.str "t1"), ("text", Json.str "hi")]]
        [[("media_id", Json.str "OTHER"), ("views", Json.num 4)]] :=
  (c7_left_join_preserves_threads
    [[("id", Json.str "t1"), ("text", Json.str "hi")]]
    [[("media_id", Json.str "OTHER"), ("views", Json.num 4)]]
    [("id", Json.str "t1"), ("text", Json.str "hi")]
    (List.mem_singleton.mpr rfl) rfl).1 rfl

/-- C9: when pagination yields zero thread records,
`fetch_and_merge_threads_with_insights` returns the empty table and its
result does not depend on the per-media insights collaborator at all (no
insights fetch is observable); more generally, when the per-media fetch
yields no usable insights, or when the insights table flattens to empty,
the function short-circuits and returns the threads table built so far. -/
theorem c9_empty_stage_short_circuits :
    (∀ (pages : List Json) (metrics : List String)
       (h1 h2 : Json → Except String (Nat × Json)) (c t : String),
       fetchAllThreadsWithPagination pages = .ok [] →
       fetchAndMergeThreadsWithInsights pages metrics h1 c t = .ok [] ∧
       fetchAndMergeThreadsWithInsights pages metrics h1 c t =
         fetchAndMergeThreadsWithInsights pages metrics h2 c t) ∧
    (∀ (pages : List Json) (metrics : List String)
       (http : Json → Except String (Nat × Json)) (c t : String)
       (ts : List Json) (tdf : List Row),
       fetchAllThreadsWithPagination pages = .ok ts → ts ≠ [] →
       threadsJsonToDataframe ts = .ok tdf → tdf ≠ [] →
       fetchInsightsForMedia metrics http tdf = [] →
       fetchAndMergeThreadsWithInsights pages metrics http c t = .ok tdf) ∧
    (∀ (pages : List Json) (metrics : List String)
       (http : Json → Except String (Nat × Json)) (c t : String)
       (ts : List Json) (tdf : List Row),
       fetchAllThreadsWithPagination pages = .ok ts → ts ≠ [] →
       threadsJsonToDataframe ts = .ok tdf → tdf ≠ [] →
       fetchInsightsForMedia metrics http tdf ≠ [] →
       insightsToDataframe (fetchInsightsForMedia metrics http tdf) = .ok [] →
       fetchAndMergeThreadsWithInsights pages metrics http c t = .ok tdf) := by
  refine ⟨?_, ?_, ?_⟩
  · intro pages metrics h1 h2 c t hfetch
    constructor
    · simp only [fetchAndMergeThreadsWithInsights]
      rw [hfetch, exBind_ok]
      rfl
    · simp only [fetchAndMergeThreadsWithInsights]
      rw [hfetch]
      simp only [exBind_ok]
      rfl
  · intro pages metrics http c t ts tdf hts htsne htdf htdfne hil
    cases ts with
    | nil => exact absurd rfl htsne
    | cons a as =>
      cases tdf with
      | nil => exact absurd rfl htdfne
      | cons r rs =>
        simp only [fetchAndMergeThreadsWithInsights]
        rw [hts, exBind_ok, if_neg (by simp), htdf, exBind_ok, if_neg (by simp), hil]
        rfl
  · intro pages metrics http c t ts tdf hts htsne htdf htdfne hilne hidf
    cases ts with
    | nil => exact absurd rfl htsne
    | cons a as =>
      cases tdf with
      | nil => exact absurd rfl htdfne
      | cons r rs =>
        rcases hil : fetchInsightsForMedia metrics http (r :: rs) with _ | ⟨x, xs⟩
        · exact absurd hil hilne
        · rw [hil] at hidf
          simp only [fetchAndMergeThreadsWithInsights]
          rw [hts, exBind_ok, if_neg (by simp), htdf, exBind_ok, if_neg (by simp), hil,
              if_neg (by simp), hidf, exBind_ok]
          rfl

/-- C9 witness: the three short-circuits at concrete inputs — zero pages
give an empty table even with a failing insights collaborator; an
all-error insights collaborator returns the threads table; a collaborator
whose payloads carry no `data` returns the threads table. -/
theorem c9_empty_stage_short_circuits_witness :
    fetchAndMergeThreadsWithInsights [] ["views"] (fun _ => .error "down") "c" "t" =
      .ok [] ∧
    fetchAndMergeThreadsWithInsights [Json.obj [("data", Json.arr [Json.obj [("id", Json.str "t1")]])]]
        ["views"] (fun _ => .ok (400, Json.obj [])) "c" "t" =
      .ok [[("id", Json.str "t1"), ("media_product_type", Json.null),
            ("media_type", Json.null), ("media_url", Json.null),
            ("permalink", Json.null), ("owner_id", Json.null),
            ("username", Json.null), ("text", Json.null),
            ("timestamp", Json.null), ("shortcode", Json.null),
            ("is_quote_post", Json.null), ("has_replies", Json.null),
            ("children_ids", Json.null)]] ∧
    fetchAndMergeThreadsWithInsights [Json.obj [("data", Json.arr [Json.obj [("id", Json.str "t1")]])]]
        ["views"] (fun _ => .ok (200, Json.obj [])) "c" "t" =
      .ok [[("id", Json.str "t1"), ("media_product_type", Json.null),
            ("media_type", Json.null), ("media_url", Json.null),
            ("permalink", Json.null), ("owner_id", Json.null),
            ("username", Json.null), ("text", Json.null),
            ("timestamp", Json.null), ("shortcode", Json.null),
            ("is_quote_post", Json.null), ("has_replies", Json.null),
            ("children_ids", Json.null)]] :=
  ⟨(c9_empty_stage_short_circuits.1 [] ["views"]
      (fun _ => .error "down") (fun _ => .error "down") "c" "t" rfl).1,
   c9_empty_stage_short_circuits.2.1
     [Json.obj [("data", Json.arr [Json.obj [("id", Json.str "t1")]])]]
     ["views"] (fun _ => .ok (400, Json.obj [])) "c" "t"
     [Json.obj [("id", Json.str "t1")]]
     [[("id", Json.str "t1"), ("media_product_type", Json.null),
       ("media_type", Json.null), ("media_url", Json.null),
       ("permalink", Json.null), ("owner_id", Json.null),
       ("username", Json.null), ("text", Json.null),
       ("timestamp", Json.null), ("shortcode", Json.null),
       ("is_quote_post", Json.null), ("has_replies", Json.null),
       ("children_ids", Json.null)]]
     rfl (by simp) rfl (by simp) rfl,
   c9_empty_stage_short_circuits.2.2
     [Json.obj [("data", Json.arr [Json.obj [("id", Json.str "t1")]])]]
     ["views"] (fun _ => .ok (200, Json.obj [])) "c" "t"
     [Json.obj [("id", Json.str "t1")]]
     [[("id", Json.str "t1"), ("media_product_type", Json.null),
       ("media_type", Json.null), ("media_url", Json.null),
       ("permalink", Json.null), ("owner_id", Json.null),
       ("username", Json.null), ("text", Json.null),
       ("timestamp", Json.null), ("shortcode", Json.null),
       ("is_quote_post", Json.null), ("has_replies", Json.null),
       ("children_ids", Json.null)]]
     rfl (by simp) rfl (by simp) (fun h => List.noConfusion h) rfl⟩

end TIC
